import Mathlib

/-!
Verification of the kube-ovn node-local dataplane attachment agent
(`pkg/daemon/controller.go`) against its natural-language specification.

The Go code is shallowly embedded: every OS/OVS side effect (netlink link,
address and route manipulation, sysctl, ovs-vsctl invocations, ARP/ICMP
probes) is represented by an oracle in an `Env` record plus an `Op` event
appended to a trace, and each embedded function returns the list of emitted
operations together with its result.  Go byte strings are modelled as
`String`/`List Char` (the inputs of interest are ASCII, where Go's
byte-indexed slicing coincides with character indexing).  Go runtime panics
(slice/index out of range) are modelled as `Option`/a dedicated `panicOOR`
result, never as ordinary errors.
-/

namespace KubeOvn

/-! ## String utilities (Go `strings` package behaviour) -/

/-- Split a character list at every occurrence of `c`; mirrors Go
`strings.Split` for a one-character separator: the result is never empty,
and splitting the empty string yields `[[]]`. -/
def splitListOn (c : Char) : List Char → List (List Char)
  | [] => [[]]
  | x :: xs =>
    match splitListOn c xs with
    | [] => [[]]
    | y :: ys => if x = c then [] :: y :: ys else (x :: y) :: ys

/-- Go `strings.Split(s, ",")`. -/
def splitComma (s : String) : List String :=
  (splitListOn ',' s.toList).map String.mk

/-- Go `strings.Split(s, "/")`. -/
def splitSlash (s : String) : List String :=
  (splitListOn '/' s.toList).map String.mk

/-- List version of Go `strings.HasPrefix`. -/
def startsWithL : List Char → List Char → Bool
  | _, [] => true
  | [], _ :: _ => false
  | x :: xs, y :: ys => x = y && startsWithL xs ys

/-- Go `strings.TrimPrefix(s, p)`: drop `p` from the front of `s` when it
starts with `p`, otherwise return `s` unchanged. -/
def trimLead (s p : String) : String :=
  if startsWithL s.toList p.toList then String.mk (s.toList.drop p.toList.length) else s

/-- Decimal digit parser used by the address parser. -/
def digitVal (c : Char) : Option Nat :=
  if '0' ≤ c ∧ c ≤ '9' then some (c.toNat - '0'.toNat) else none

/-- Parse a decimal natural number from a character list (all characters
must be digits, list nonempty). -/
def parseNatL (l : List Char) : Option Nat :=
  if l = [] then none
  else l.foldl (fun acc c => acc.bind fun n => (digitVal c).map fun d => n * 10 + d) (some 0)

/-- One hexadecimal digit (lowercase), for rendering netmasks the way Go
`net.IPMask.String` does. -/
def hexDigitChar (n : Nat) : Char :=
  if n < 10 then Char.ofNat ('0'.toNat + n) else Char.ofNat ('a'.toNat + (n - 10))

/-- Render `v` as exactly `digits` lowercase hexadecimal digits
(big endian), the format of Go `net.IPMask.String`. -/
def hexPad (digits v : Nat) : String :=
  String.mk (((List.range digits).reverse).map fun i => hexDigitChar (v / 16 ^ i % 16))

/-! ## Data model -/

/-- Result of `util.CheckProtocol`: the address-family classification of a
comma-joined IP or CIDR list. -/
inductive Protocol
  | ipv4
  | ipv6
  | dual
  | unknown
deriving DecidableEq, Repr

/-- Crude IPv4 syntax test: nonempty, only digits and dots, at least one
dot. -/
def isV4 (s : String) : Bool :=
  s ≠ "" && s.toList.all (fun c => c.isDigit || c = '.') && s.toList.contains '.'

/-- Crude IPv6 syntax test: contains a colon. -/
def isV6 (s : String) : Bool :=
  s.toList.contains ':'

/-- Modelled from the spec: `util.CheckProtocol` (in `pkg/util`, not under
`src/`) classifies a comma-joined address list; for dual stack the IPv4
entry comes first, a single entry is classified by its own family, and a
mask suffix is ignored. -/
def CheckProtocol (address : String) : Protocol :=
  let ips := splitComma address
  if ips.length = 2 then
    let a1 := (splitSlash (ips.getD 0 "")).headD ""
    let a2 := (splitSlash (ips.getD 1 "")).headD ""
    if isV4 a1 && isV6 a2 then .dual else .unknown
  else
    let a := (splitSlash address).headD ""
    if isV4 a then .ipv4 else if isV6 a then .ipv6 else .unknown

/-- Modelled from the spec: Go `net.ParseIP` (standard library) returns nil
for anything that is not a bare IP literal; we keep the accepted literal
itself. -/
def parseIP (s : String) : Option String :=
  if s ≠ "" && !s.toList.contains ',' && !s.toList.contains '/' then some s else none

/-- Modelled from the spec: Go `net.ParseCIDR` accepts `addr/len` and
returns the network; we keep the accepted literal as the destination id. -/
def parseCIDR (s : String) : Option String :=
  match splitSlash s with
  | [a, l] =>
    match parseNatL l.toList with
    | some _ => if a ≠ "" then some s else none
    | none => none
  | _ => none

/-- A netlink address as this embedding sees it: `ipStr` is the result of
Go `addr.IP.String()`, `maskStr` the result of `addr.Mask.String()` (the
hexadecimal form, e.g. `ffffff00` for /24), `linkLocal` the result of
`addr.IP.IsLinkLocalUnicast()`, and `label` the netlink address label. -/
structure Addr where
  ipStr : String
  maskStr : String
  linkLocal : Bool
  label : String
deriving DecidableEq, Repr

/-- The map key `ipAddr.IP.String()+"/"+ipAddr.Mask.String()` used by
`configureNic`/`configureAdditionalNic` for currently-configured
addresses. -/
def addrKey (a : Addr) : String :=
  a.ipStr ++ "/" ++ a.maskStr

/-- Link-local test on a textual address, used by the modelled
`netlink.ParseAddr` (169.254.0.0/16 and fe80::/10). -/
def isLinkLocalStr (s : String) : Bool :=
  startsWithL s.toList "169.254.".toList || startsWithL s.toList "fe80:".toList

/-- Modelled from the spec: `netlink.ParseAddr` parses a CIDR string
`ip/len` into an address; the stored mask renders in hexadecimal, exactly
as `net.IPMask.String` does for an address read back from the kernel. -/
def parseAddr (s : String) : Option Addr :=
  match splitSlash s with
  | [ip, l] =>
    match parseNatL l.toList with
    | none => none
    | some len =>
      if ip = "" then none
      else
        let bits := if isV6 ip then 128 else 32
        if len ≤ bits then
          some { ipStr := ip
                 maskStr := hexPad (bits / 4) (2 ^ bits - 2 ^ (bits - len))
                 linkLocal := isLinkLocalStr ip
                 label := "" }
        else none
  | _ => none

/-- The kind of a netlink link, as far as `linkIsAlbBond` needs it. -/
inductive LinkKind
  | bond (mode : Nat)
  | vlan (parentIndex : Int)
  | other
deriving DecidableEq, Repr

/-- A netlink link (`link.Attrs()` projection plus the concrete type). -/
structure Link where
  name : String
  index : Int
  mtu : Int
  hwAddr : String
  operState : Nat
  kind : LinkKind
deriving DecidableEq, Repr

/-- netlink `OperUp`. -/
def OperUp : Nat := 6

/-- netlink `BOND_MODE_BALANCE_ALB`. -/
def BOND_MODE_BALANCE_ALB : Nat := 6

/-- netlink route scopes. -/
def SCOPE_UNIVERSE : Nat := 0

/-- netlink `SCOPE_SITE`. -/
def SCOPE_SITE : Nat := 200

/-- netlink `SCOPE_LINK`. -/
def SCOPE_LINK : Nat := 253

/-- netlink `SCOPE_HOST`. -/
def SCOPE_HOST : Nat := 254

/-- Modelled from the spec: `routeScopeOrders` (declared elsewhere in the
daemon package, not under `src/`) — attach-direction route replay order:
link, then site, then universe; host scope is not replayed. -/
def routeScopeOrders : List Nat := [SCOPE_LINK, SCOPE_SITE, SCOPE_UNIVERSE]

/-- Modelled from the spec: gateway-check mode constants of the daemon
package (disabled / ping / arping). -/
def gatewayModeDisabled : Int := 0

/-- Modelled from the spec: echo-probe gateway check mode. -/
def gatewayCheckModePing : Int := 1

/-- Modelled from the spec: address-resolution gateway check mode. -/
def gatewayCheckModeArping : Int := 2

/-- Modelled from the spec: `util.InternalType`, the device-model tag of
in-switch virtual (OVS internal) ports. -/
def InternalType : String := "internal"

/-- A netlink route: `dst = none` models a nil `Dst`, `gw = none` a nil
`Gw`; `dstLinkLocal` is `Dst.IP.IsLinkLocalUnicast()`. -/
structure Route where
  dst : Option String
  dstLinkLocal : Bool
  gw : Option String
  scope : Nat
  linkIndex : Int
deriving DecidableEq, Repr

/-- A static route of the attachment request (`request.Route`). -/
structure ReqRoute where
  destination : String
  gateway : String
deriving DecidableEq, Repr

/-- Result of a `netlink.LinkByName`/`LinkByIndex` lookup. -/
inductive LinkLookup
  | found (l : Link)
  | notFound
  | otherErr
deriving DecidableEq, Repr

/-- Result of a `netlink.AddrDel` call: success, `EADDRNOTAVAIL`, or any
other error. -/
inductive DelOutcome
  | ok
  | notAvail
  | err
deriving DecidableEq, Repr

/-- One OS/OVS side effect emitted by the embedded code. -/
inductive Op
  | linkSetAlias (link aliasName : String)
  | linkSetNsFd (link : String)
  | linkSetName (link new : String)
  | sysctlSet (key val : String)
  | linkAdd (name : String) (mtu : Int)
  | linkDel (name : String)
  | addrDel (link : String) (a : Addr)
  | addrAdd (link : String) (a : Addr)
  | addrReplace (link : String) (a : Addr)
  | linkSetHw (link mac : String)
  | linkSetMTU (link : String) (mtu : Int)
  | linkSetUp (link : String)
  | linkSetDown (link : String)
  | routeReplace (r : Route)
  | ovsExec (args : List String)
  | arping (nic src gw : String)
  | ping (gw src : String)
deriving DecidableEq, Repr

/-- The environment: one oracle per external call site.  Each embedded
function consults these oracles in the order the Go code performs the
corresponding calls. -/
structure Env where
  linkByName : String → LinkLookup
  linkByIndex : Int → LinkLookup
  addrList : String → Except String (List Addr)
  routeList : String → Except String (List Route)
  sysctlGet : String → Except String String
  sysctlSetOk : String → Bool
  linkAddOk : String → Bool
  linkDelOk : String → Bool
  addrDelRes : String → Addr → DelOutcome
  addrAddOk : String → Addr → Bool
  addrReplaceOk : String → Addr → Bool
  linkSetHwOk : String → Bool
  linkSetMTUOk : String → Bool
  linkSetUpOk : String → Bool
  linkSetDownOk : String → Bool
  linkSetNameOk : String → Bool
  linkSetAliasOk : String → Bool
  linkSetNsFdOk : String → Bool
  routeReplaceOk : Route → Bool
  ovsExecOk : List String → Bool
  ovsDelPortOk : String → Bool
  arpingOk : String → String → String → Bool
  pingOk : String → String → Bool

/-- How an embedded computation stops abnormally: a Go error value, or a
runtime panic (index/slice out of range). -/
inductive Stop
  | err (msg : String)
  | panicOOR
deriving DecidableEq, Repr

/-- A traced computation: the operations emitted so far and, if it stopped
early, how. -/
abbrev TraceM := List Op × Option Stop

/-- Successful empty step. -/
def tdone : TraceM := ([], none)

/-- Sequencing with Go-style early return: if `a` stopped, `b` never
runs. -/
def tseq (a : TraceM) (b : Unit → TraceM) : TraceM :=
  match a with
  | (ops, some e) => (ops, some e)
  | (ops, none) =>
    let r := b ()
    (ops ++ r.1, r.2)

/-- One externally-visible call whose success is decided by a Boolean
oracle. -/
def boolStep (op : Op) (ok : Bool) (errMsg : String) : TraceM :=
  if ok then ([op], none) else ([op], some (.err errMsg))

/-- Observable result of a function that can succeed, fail with a Go
error, or panic. -/
inductive RRes
  | ok
  | fail (msg : String)
  | panicOOR
deriving DecidableEq, Repr

/-- Interpret a finished trace as an `RRes`. -/
def stopToRRes : Option Stop → RRes
  | none => .ok
  | some (.err m) => .fail m
  | some .panicOOR => .panicOOR

/-- Package a traced body as a Go `(int, error)` result (value `v` on
success). -/
def finishInt (bd : TraceM) (v : Int) : List Op × Except String Int :=
  match bd with
  | (ops, none) => (ops, .ok v)
  | (ops, some (.err e)) => (ops, .error e)
  | (ops, some .panicOOR) => (ops, .error "runtime panic")

/-- Package a traced body as a Go `error` result. -/
def finishUnit (bd : TraceM) : List Op × Except String Unit :=
  match bd with
  | (ops, none) => (ops, .ok ())
  | (ops, some (.err e)) => (ops, .error e)
  | (ops, some .panicOOR) => (ops, .error "runtime panic")

/-! ## Name Deriver (`generateNicName`) -/

/-- The primary interface name, as a character list. -/
def eth0L : List Char := ['e', 't', 'h', '0']

/-- Embedding of `generateNicName` over character lists.  Go slices
`containerID[0:12]` resp. `containerID[0:12-len(ifname)]`; a slice with a
negative upper bound (`len(ifname) > 12`) or an upper bound beyond
`len(containerID)` panics, modelled as `none`. -/
def generateNicNameL (containerID ifname : List Char) : Option (List Char × List Char) :=
  if ifname = eth0L then
    if 12 ≤ containerID.length then
      some (containerID.take 12 ++ ['_', 'h'], containerID.take 12 ++ ['_', 'c'])
    else none
  else
    if ifname.length ≤ 12 ∧ 12 - ifname.length ≤ containerID.length then
      some (containerID.take (12 - ifname.length) ++ '_' :: (ifname ++ ['_', 'h']),
            containerID.take (12 - ifname.length) ++ '_' :: (ifname ++ ['_', 'c']))
    else none

/-- String-level wrapper of the Name Deriver (ASCII inputs: Go byte
indices coincide with character indices). -/
def generateNicName (containerID ifname : String) : Option (String × String) :=
  (generateNicNameL containerID.toList ifname.toList).map
    fun p => (String.mk p.1, String.mk p.2)

/-! ## Device Provisioner: software veth pair (`setupVethPair`) -/

/-- Embedding of `setupVethPair`.  `none` models the panic inside
`generateNicName`.  On `LinkAdd` failure the code attempts `LinkDel` on
the half-created pair; if the delete also fails its error is returned,
otherwise the creation error — either way the returned names are empty
and the error is non-nil. -/
def setupVethPair (env : Env) (containerID ifName : String) (mtu : Int) :
    Option (List Op × (String × String × Option String)) :=
  match generateNicName containerID ifName with
  | none => none
  | some (hostNicName, containerNicName) =>
    let m : Int := if mtu > 0 then mtu else 0
    some <|
      if env.linkAddOk hostNicName then
        ([.linkAdd hostNicName m], (hostNicName, containerNicName, none))
      else if env.linkDelOk hostNicName then
        ([.linkAdd hostNicName m, .linkDel hostNicName], ("", "", some "failed to create veth"))
      else
        ([.linkAdd hostNicName m, .linkDel hostNicName], ("", "", some "failed to delete veth"))

/-! ## Namespace Installer: address reconciliation (`configureNic`,
`configureAdditionalNic`, `addAdditionalNic`) -/

/-- Association-list membership, standing in for a Go map key test. -/
def alContains (m : List (String × Addr)) (k : String) : Bool :=
  m.any fun kv => kv.1 = k

/-- Go map insert (overwrite on duplicate key). -/
def alInsert (m : List (String × Addr)) (k : String) (v : Addr) : List (String × Addr) :=
  if alContains m k then m.map (fun kv => if kv.1 = k then (k, v) else kv) else m ++ [(k, v)]

/-- Go `delete(m, k)`. -/
def alErase (m : List (String × Addr)) (k : String) : List (String × Addr) :=
  m.filter fun kv => kv.1 ≠ k

/-- First loop of `configureNic`: index the currently configured,
non-link-local addresses by `IP.String()+"/"+Mask.String()`. -/
def buildDelMap (ipAddrs : List Addr) : List (String × Addr) :=
  ipAddrs.foldl (fun m a => if a.linkLocal then m else alInsert m (addrKey a) a) []

/-- Second loop of `configureNic`: for each requested address string, a
hit in the delete map removes it there (address kept untouched); a miss
parses the string (parse failure aborts) and schedules an add. -/
def buildAddPlan (m : List (String × Addr)) :
    List String → Except String (List (String × Addr) × List Addr)
  | [] => .ok (m, [])
  | s :: rest =>
    if alContains m s then buildAddPlan (alErase m s) rest
    else
      match parseAddr s with
      | none => .error "can not parse address"
      | some a =>
        match buildAddPlan m rest with
        | .error e => .error e
        | .ok (m2, adds) => .ok (m2, a :: adds)

/-- Deletion loop of `configureNic`: any `AddrDel` error (including
`EADDRNOTAVAIL`) aborts. -/
def runDels (env : Env) (link : String) : List Addr → TraceM
  | [] => tdone
  | a :: rest =>
    match env.addrDelRes link a with
    | .ok => tseq ([.addrDel link a], none) fun _ => runDels env link rest
    | _ => ([.addrDel link a], some (.err "delete address failed"))

/-- Addition loop of `configureNic`. -/
def runAdds (env : Env) (link : String) : List Addr → TraceM
  | [] => tdone
  | a :: rest =>
    if env.addrAddOk link a then
      tseq ([.addrAdd link a], none) fun _ => runAdds env link rest
    else ([.addrAdd link a], some (.err "can not add address"))

/-- Embedding of the standalone `configureNic(link, ip, macAddr, mtu)`:
reconcile addresses, set MAC, set MTU when positive, bring the link up
when not already up. -/
def configureNicT (env : Env) (link ip mac : String) (mtu : Int) : TraceM :=
  match env.linkByName link with
  | .found nodeLink =>
    match env.addrList link with
    | .error _ => ([], some (.err "can not get addr"))
    | .ok ipAddrs =>
      match buildAddPlan (buildDelMap ipAddrs) (splitComma ip) with
      | .error e => ([], some (.err e))
      | .ok (delMap, adds) =>
        tseq (runDels env link (delMap.map fun kv => kv.2)) fun _ =>
        tseq (runAdds env link adds) fun _ =>
        tseq (boolStep (.linkSetHw link mac) (env.linkSetHwOk link) "can not set mac address") fun _ =>
        tseq (if mtu > 0 then
                boolStep (.linkSetMTU link mtu) (env.linkSetMTUOk link) "can not set nic mtu"
              else tdone) fun _ =>
        (if nodeLink.operState ≠ OperUp then
           boolStep (.linkSetUp link) (env.linkSetUpOk link) "can not set node nic up"
         else tdone)
  | _ => ([], some (.err "can not find nic"))

/-- `configureNic` with its Go-style result. -/
def configureNic (env : Env) (link ip mac : String) (mtu : Int) : List Op × Except String Unit :=
  finishUnit (configureNicT env link ip mac mtu)

/-- Embedding of `configureAdditionalNic`: the same reconciliation as
`configureNic` without the MAC/MTU/up steps. -/
def configureAdditionalNicT (env : Env) (link ip : String) : TraceM :=
  match env.linkByName link with
  | .found _ =>
    match env.addrList link with
    | .error _ => ([], some (.err "can not get addr"))
    | .ok ipAddrs =>
      match buildAddPlan (buildDelMap ipAddrs) (splitComma ip) with
      | .error e => ([], some (.err e))
      | .ok (delMap, adds) =>
        tseq (runDels env link (delMap.map fun kv => kv.2)) fun _ =>
        runAdds env link adds
  | _ => ([], some (.err "can not find nic"))

/-- Embedding of `addAdditionalNic`: create a dummy link; on failure try
to delete the half-created link before signalling the error. -/
def addAdditionalNicT (env : Env) (ifName : String) : TraceM :=
  if env.linkAddOk ifName then ([.linkAdd ifName 0], none)
  else if env.linkDelOk ifName then
    ([.linkAdd ifName 0, .linkDel ifName], some (.err "failed to create static iface"))
  else ([.linkAdd ifName 0, .linkDel ifName], some (.err "failed to delete static iface"))

/-! ## Reachability Prober (`waitNetworkReady`) -/

/-- The probe-selection condition of `waitNetworkReady`: address
resolution is used exactly for an underlay gateway of IPv4 family. -/
def probeIsArping (underlayGateway : Bool) (gw : String) : Bool :=
  underlayGateway && CheckProtocol gw == Protocol.ipv4

/-- The `for i, gw := range strings.Split(gateway, ",")` loop of
`waitNetworkReady`; `ips[i]` is a Go index expression that panics when
out of range.  `util.Arping` and `pingGateway` live outside `src/` and
are modelled as bounded probe oracles whose failure means the probe
budget was exhausted. -/
def waitLoop (env : Env) (nic : String) (ips : List String) (underlayGateway : Bool) :
    List String → Nat → TraceM
  | [], _ => tdone
  | gw :: rest, i =>
    match ips[i]? with
    | none => ([], some .panicOOR)
    | some ipi =>
      let src := (splitSlash ipi).headD ""
      if probeIsArping underlayGateway gw then
        if env.arpingOk nic src gw then
          tseq ([.arping nic src gw], none) fun _ => waitLoop env nic ips underlayGateway rest (i + 1)
        else ([.arping nic src gw], some (.err "network not ready"))
      else
        if env.pingOk gw src then
          tseq ([.ping gw src], none) fun _ => waitLoop env nic ips underlayGateway rest (i + 1)
        else ([.ping gw src], some (.err "ping gateway failed"))

/-- Embedding of `waitNetworkReady`. -/
def waitNetworkReady (env : Env) (nic ipAddr gateway : String) (underlayGateway verbose : Bool) :
    List Op × RRes :=
  let t := waitLoop env nic (splitComma ipAddr) underlayGateway (splitComma gateway) 0
  (t.1, stopToRRes t.2)

/-! ## Namespace Installer (`configureContainerNic`) -/

/-- IPv6 enablement step of `configureContainerNic` (run for dual-stack
or IPv6 requests). -/
def ipv6SysctlStep (env : Env) (ipAddr : String) : TraceM :=
  if CheckProtocol ipAddr = Protocol.dual ∨ CheckProtocol ipAddr = Protocol.ipv6 then
    match env.sysctlGet "net.ipv6.conf.all.disable_ipv6" with
    | .error _ => ([], some (.err "failed to get sysctl"))
    | .ok v =>
      if v ≠ "0" then
        boolStep (.sysctlSet "net.ipv6.conf.all.disable_ipv6" "0")
          (env.sysctlSetOk "net.ipv6.conf.all.disable_ipv6") "failed to enable ipv6 on all nic"
      else tdone
  else tdone

/-- The IPv4 default route `0.0.0.0/0` via `gw` built by
`configureContainerNic` (`netlink.Route` with universe scope). -/
def defaultRoute4 (gw : Option String) (linkIdx : Int) : Route :=
  { dst := some "0.0.0.0/0", dstLinkLocal := false, gw := gw, scope := SCOPE_UNIVERSE,
    linkIndex := linkIdx }

/-- The IPv6 default route `::/0` via `gw` built by
`configureContainerNic`. -/
def defaultRoute6 (gw : Option String) (linkIdx : Int) : Route :=
  { dst := some "::/0", dstLinkLocal := false, gw := gw, scope := SCOPE_UNIVERSE,
    linkIndex := linkIdx }

/-- Default-route block of `configureContainerNic` (`if isDefaultRoute`):
one `RouteReplace` per address family, dual stack takes the v4 gateway at
comma-split index 0 and the v6 gateway at index 1 (a missing index 1
panics). -/
def installDefaultRoutes (env : Env) (linkIdx : Int) (ipAddr gateway : String) : TraceM :=
  match CheckProtocol ipAddr with
  | .ipv4 =>
    let r := defaultRoute4 (parseIP gateway) linkIdx
    boolStep (.routeReplace r) (env.routeReplaceOk r) "failed to configure gateway"
  | .ipv6 =>
    let r := defaultRoute6 (parseIP gateway) linkIdx
    boolStep (.routeReplace r) (env.routeReplaceOk r) "failed to configure gateway"
  | .dual =>
    let gws := splitComma gateway
    let r4 := defaultRoute4 (parseIP (gws.getD 0 "")) linkIdx
    if !env.routeReplaceOk r4 then ([.routeReplace r4], some (.err "config v4 gateway failed"))
    else
      match gws[1]? with
      | none => ([.routeReplace r4], some .panicOOR)
      | some g6 =>
        let r6 := defaultRoute6 (parseIP g6) linkIdx
        tseq ([.routeReplace r4], none) fun _ =>
          boolStep (.routeReplace r6) (env.routeReplaceOk r6) "failed to configure gateway"
  | .unknown => tdone

/-- Static-route loop of `configureContainerNic`: malformed destination or
gateway entries are logged and skipped, and a `RouteReplace` failure is
logged but never fatal. -/
def installStaticRoutes (env : Env) (linkIdx : Int) : List ReqRoute → TraceM
  | [] => tdone
  | r :: rest =>
    match parseCIDR r.destination with
    | none => installStaticRoutes env linkIdx rest
    | some dst =>
      if r.gateway ≠ "" ∧ parseIP r.gateway = none then installStaticRoutes env linkIdx rest
      else
        let gw := if r.gateway ≠ "" then parseIP r.gateway else none
        let route : Route := { dst := some dst,
                               dstLinkLocal := isLinkLocalStr ((splitSlash dst).headD ""),
                               gw := gw, scope := SCOPE_UNIVERSE, linkIndex := linkIdx }
        tseq ([.routeReplace route], none) fun _ => installStaticRoutes env linkIdx rest

/-- Embedding of `configureContainerNic`: alias, namespace move, rename
(non-internal ports), IPv6 enablement, per-model address configuration,
default routes, static routes, and the reachability gate. -/
def configureContainerNic (env : Env) (nicName ifName ipAddr gateway : String)
    (isDefaultRoute : Bool) (routes : List ReqRoute) (macAddr : String)
    (mtu : Int) (nicType : String) (gwCheckMode : Int) : List Op × RRes :=
  match env.linkByName nicName with
  | .found containerLink =>
    let body : TraceM :=
      tseq (boolStep (.linkSetAlias nicName nicName) (env.linkSetAliasOk nicName)
              "failed to set link alias") fun _ =>
      tseq (boolStep (.linkSetNsFd nicName) (env.linkSetNsFdOk nicName)
              "failed to move link to netns") fun _ =>
      tseq (if nicType ≠ InternalType then
              boolStep (.linkSetName nicName ifName) (env.linkSetNameOk nicName)
                "failed to set link name"
            else tdone) fun _ =>
      tseq (ipv6SysctlStep env ipAddr) fun _ =>
      tseq (if nicType = InternalType then
              tseq (addAdditionalNicT env ifName) fun _ =>
              tseq (configureAdditionalNicT env ifName ipAddr) fun _ =>
              configureNicT env nicName ipAddr macAddr mtu
            else configureNicT env ifName ipAddr macAddr mtu) fun _ =>
      tseq (if isDefaultRoute then
              installDefaultRoutes env containerLink.index ipAddr gateway
            else tdone) fun _ =>
      tseq (installStaticRoutes env containerLink.index routes) fun _ =>
      (if gwCheckMode ≠ gatewayModeDisabled then
         let t := waitNetworkReady env (if nicType ≠ InternalType then ifName else nicName)
           ipAddr gateway (gwCheckMode == gatewayCheckModeArping) true
         (t.1, match t.2 with
               | .ok => none
               | .fail m => some (.err m)
               | .panicOOR => some .panicOOR)
       else tdone)
    (body.1, stopToRRes body.2)
  | _ => ([], .fail "can not find container nic")

/-! ## Uplink Bridge Migrator (`configProviderNic`, `removeProviderNic`,
`linkIsAlbBond`) -/

/-- Is this link itself a balance-alb bond? -/
def isAlbBondKind (l : Link) : Bool :=
  match l.kind with
  | .bond m => m == BOND_MODE_BALANCE_ALB
  | _ => false

/-- Embedding of `linkIsAlbBond`: true for a balance-alb bond or a VLAN
interface whose parent is one. -/
def linkIsAlbBond (env : Env) (link : Link) : Except String Bool :=
  if isAlbBondKind link then .ok true
  else
    match link.kind with
    | .vlan parentIndex =>
      match env.linkByIndex parentIndex with
      | .found parent => .ok (isAlbBondKind parent)
      | _ => .error "failed to get link by index"
    | _ => .ok false

/-- The label rewrite applied before the `AddrReplace` of each migrated
address: a nonempty label has `fromName` trimmed from its front and
`toName` put there instead. -/
def relabel (a : Addr) (fromName toName : String) : Addr :=
  if a.label ≠ "" then { a with label := toName ++ trimLead a.label fromName } else a

/-- The address-move loop shared verbatim by `configProviderNic`
(uplink → bridge) and `removeProviderNic` (bridge → uplink): skip
link-local addresses, `AddrDel` from `fromName` (an `EADDRNOTAVAIL`
result is tolerated and skips the replace), rewrite a nonempty label from
`fromName` to `toName`, then `AddrReplace` onto `toName`. -/
def moveAddrs (env : Env) (fromName toName : String) (delErrMsg replErrMsg : String) :
    List Addr → TraceM
  | [] => tdone
  | a :: rest =>
    if a.linkLocal then moveAddrs env fromName toName delErrMsg replErrMsg rest
    else
      match env.addrDelRes fromName a with
      | .err => ([.addrDel fromName a], some (.err delErrMsg))
      | .notAvail =>
        tseq ([.addrDel fromName a], none) fun _ =>
          moveAddrs env fromName toName delErrMsg replErrMsg rest
      | .ok =>
        let a2 := relabel a fromName toName
        if env.addrReplaceOk toName a2 then
          tseq ([.addrDel fromName a, .addrReplace toName a2], none) fun _ =>
            moveAddrs env fromName toName delErrMsg replErrMsg rest
        else ([.addrDel fromName a, .addrReplace toName a2], some (.err replErrMsg))

/-- Route replay inner loop: skip gateway-less link-local-destination
routes, re-anchor matching-scope routes on link `idx`. -/
def replayRoutesScope (env : Env) (idx : Int) (scope : Nat) : List Route → TraceM
  | [] => tdone
  | r :: rest =>
    if r.gw = none ∧ r.dst ≠ none ∧ r.dstLinkLocal then replayRoutesScope env idx scope rest
    else if r.scope = scope then
      let r2 := { r with linkIndex := idx }
      tseq (boolStep (.routeReplace r2) (env.routeReplaceOk r2) "failed to add/replace route") fun _ =>
        replayRoutesScope env idx scope rest
    else replayRoutesScope env idx scope rest

/-- Route replay outer loop over the scope order. -/
def replayRoutes (env : Env) (idx : Int) : List Nat → List Route → TraceM
  | [], _ => tdone
  | s :: rest, routes =>
    tseq (replayRoutesScope env idx s routes) fun _ => replayRoutes env idx rest routes

/-- Embedding of `configProviderNic` (attach direction).  Any
`LinkByName` failure on the uplink — including "link does not exist" —
is an error. -/
def configProviderNic (env : Env) (nicName brName : String) : List Op × Except String Int :=
  match env.linkByName nicName with
  | .found nic =>
    match env.linkByName brName with
    | .found bridge =>
      let key := "net.ipv6.conf." ++ brName ++ ".disable_ipv6"
      match env.sysctlGet key with
      | .error _ => ([], .error "failed to get sysctl")
      | .ok disableIPv6 =>
        let body : TraceM :=
          tseq (if disableIPv6 ≠ "0" then
                  boolStep (.sysctlSet key "0") (env.sysctlSetOk key)
                    "failed to enable ipv6 on OVS bridge"
                else tdone) fun _ =>
          (match env.addrList nicName with
           | .error _ => ([], some (.err "failed to get addresses on nic"))
           | .ok addrs =>
             match env.routeList nicName with
             | .error _ => ([], some (.err "failed to get routes on nic"))
             | .ok routes =>
               tseq (moveAddrs env nicName brName "failed to delete address on nic"
                       "failed to replace address on OVS bridge" addrs) fun _ =>
               tseq (match linkIsAlbBond env nic with
                     | .error e => ([], some (.err e))
                     | .ok albBond =>
                       if !albBond then
                         let args := ["set", "bridge", brName,
                                      "other-config:hwaddr=" ++ nic.hwAddr]
                         boolStep (.ovsExec args) (env.ovsExecOk args)
                           "failed to set MAC address of OVS bridge"
                       else tdone) fun _ =>
               tseq (boolStep (.linkSetMTU brName nic.mtu) (env.linkSetMTUOk brName)
                       "failed to set MTU of OVS bridge") fun _ =>
               tseq (boolStep (.linkSetUp brName) (env.linkSetUpOk brName)
                       "failed to set OVS bridge up") fun _ =>
               tseq (replayRoutes env bridge.index routeScopeOrders routes) fun _ =>
               tseq (let args := ["add-port", brName, nicName, "set", "port", nicName,
                                  "external_ids:vendor=kube-ovn"]
                     boolStep (.ovsExec args) (env.ovsExecOk args)
                       "failed to add nic to OVS bridge") fun _ =>
               boolStep (.linkSetUp nicName) (env.linkSetUpOk nicName) "failed to set link up")
        finishInt body nic.mtu
    | _ => ([], .error "failed to get bridge by name")
  | .notFound => ([], .error "failed to get nic by name")
  | .otherErr => ([], .error "failed to get nic by name")

/-- Embedding of `removeProviderNic` (detach direction).  A
`LinkNotFoundError` on the uplink returns success; any other lookup
failure is an error. -/
def removeProviderNic (env : Env) (nicName brName : String) : List Op × Except String Unit :=
  match env.linkByName nicName with
  | .notFound => ([], .ok ())
  | .otherErr => ([], .error "failed to get nic by name")
  | .found nic =>
    match env.linkByName brName with
    | .found _ =>
      match env.addrList brName with
      | .error _ => ([], .error "failed to get addresses on bridge")
      | .ok addrs =>
        match env.routeList brName with
        | .error _ => ([], .error "failed to get routes on bridge")
        | .ok routes =>
          let body : TraceM :=
            tseq (let args := ["del-port", brName, nicName]
                  boolStep (.ovsExec args) (env.ovsExecOk args)
                    "failed to remove nic from OVS bridge") fun _ =>
            tseq (moveAddrs env brName nicName "failed to delete address on OVS bridge"
                    "failed to replace address on nic" addrs) fun _ =>
            tseq (boolStep (.linkSetDown brName) (env.linkSetDownOk brName)
                    "failed to set OVS bridge down") fun _ =>
            replayRoutes env nic.index [SCOPE_HOST, SCOPE_LINK, SCOPE_SITE, SCOPE_UNIVERSE] routes
          finishUnit body
    | _ => ([], .error "failed to get bridge by name")

/-! ## Residual Port Reaper (`markAndCleanInternalPort`) -/

/-- The `for _, portName := range residualPorts` loop: a port absent from
the previous-sweep memory is marked, a present one is deleted through
`ovs-vsctl del-port` (a delete failure aborts the sweep).  Returns
(marked, successfully deleted, error). -/
def sweepLoop (env : Env) (mem : List String) :
    List String → List String × List String × Option String
  | [] => ([], [], none)
  | p :: rest =>
    if !mem.contains p then
      let r := sweepLoop env mem rest
      (p :: r.1, r.2.1, r.2.2)
    else if env.ovsDelPortOk p then
      let r := sweepLoop env mem rest
      (r.1, p :: r.2.1, r.2.2)
    else ([], [], some "failed to delete ovs port")

/-- Embedding of `markAndCleanInternalPort` acting on the package-level
memory `lastNoPodOvsPort`: an empty residual list returns before touching
the memory; otherwise the memory becomes the marked set, except that an
aborted sweep leaves it unchanged.  Returns (deleted, new memory,
error). -/
def markAndCleanInternalPort (env : Env) (mem residualPorts : List String) :
    List String × List String × Option String :=
  if residualPorts.isEmpty then ([], mem, none)
  else
    match sweepLoop env mem residualPorts with
    | (noPodOvsPort, deleted, none) => (deleted, noPodOvsPort, none)
    | (_, deleted, some e) => (deleted, mem, some e)

/-- Iterate the reaper over a sequence of sweeps; returns the per-sweep
deletion lists and the final memory. -/
def runSweeps (env : Env) (mem : List String) : List (List String) → List (List String) × List String
  | [] => ([], mem)
  | r :: rest =>
    let s := markAndCleanInternalPort env mem r
    let t := runSweeps env s.2.1 rest
    (s.1 :: t.1, t.2)

/-! ## Claim predicates -/

/-- Same address value (IP and prefix), label disregarded. -/
def sameIpMask (a b : Addr) : Bool :=
  a.ipStr = b.ipStr && a.maskStr = b.maskStr

/-- The per-address ordering asserted by claim C2: scanning the trace,
every deletion of a (non-link-local) address from the uplink must be
preceded by an installation of the same address on the bridge. -/
def installedBeforeDeleted (nicName brName : String) (seen : List Addr) : List Op → Bool
  | [] => true
  | op :: rest =>
    match op with
    | .addrReplace l a =>
      installedBeforeDeleted nicName brName (if l = brName then a :: seen else seen) rest
    | .addrDel l a =>
      if l = nicName then
        seen.any (fun b => sameIpMask b a) && installedBeforeDeleted nicName brName seen rest
      else installedBeforeDeleted nicName brName seen rest
    | _ => installedBeforeDeleted nicName brName seen rest

/-- The ordering the code actually implements: scanning the trace, every
installation of an address on `toName` is preceded by a deletion of the
same address from `fromName`. -/
def deletedBeforeInstalled (fromName toName : String) (seen : List Addr) : List Op → Bool
  | [] => true
  | op :: rest =>
    match op with
    | .addrDel l a =>
      deletedBeforeInstalled fromName toName (if l = fromName then a :: seen else seen) rest
    | .addrReplace l a =>
      if l = toName then
        seen.any (fun b => sameIpMask b a) && deletedBeforeInstalled fromName toName seen rest
      else deletedBeforeInstalled fromName toName seen rest
    | _ => deletedBeforeInstalled fromName toName seen rest

/-- Accumulator evolution of `deletedBeforeInstalled` over a trace
segment: the deletions from `fromName` it collects. -/
def collectDels (fromName : String) (seen : List Addr) : List Op → List Addr
  | [] => seen
  | op :: rest =>
    match op with
    | .addrDel l a => collectDels fromName (if l = fromName then a :: seen else seen) rest
    | _ => collectDels fromName seen rest

/-- The two-generation deletion pattern asserted by claim C3: no port is
deleted on the first sweep, and a port deleted on sweep N was observed
residual on sweep N-1. -/
def deletedOnlyIfPrevResidual (prev : List String) :
    List (List String) → List (List String) → Bool
  | r :: rs, d :: ds =>
    d.all (fun p => prev.contains p) && deletedOnlyIfPrevResidual r rs ds
  | _, _ => true

/-- Is this operation installing a default route (either family)? -/
def isDefRouteOp : Op → Bool
  | .routeReplace r => r.dst == some "0.0.0.0/0" || r.dst == some "::/0"
  | _ => false

/-- Default-route installations of a trace. -/
def defRouteOps (ops : List Op) : List Op :=
  ops.filter isDefRouteOp

/-- Is this a `RouteReplace` of any kind? -/
def isRouteReplaceOp : Op → Bool
  | .routeReplace _ => true
  | _ => false

/-- Does the probe that `waitNetworkReady` runs for gateway `gw` at
position `i` succeed in `env`? -/
def probeOk (env : Env) (nic : String) (ips : List String) (underlayGateway : Bool)
    (gw : String) (i : Nat) : Bool :=
  let src := (splitSlash (ips.getD i "")).headD ""
  if probeIsArping underlayGateway gw then env.arpingOk nic src gw else env.pingOk gw src

/-- Boolean success test on the `Except` result of uplink attach. -/
def exOkInt : Except String Int → Bool
  | .ok _ => true
  | .error _ => false

/-- The common shape of both names produced by `generateNicNameL` (the
final character `t` is `h` for the host name and `c` for the container
name). -/
def nicEncode (cid n : List Char) (t : Char) : List Char :=
  if n = eth0L then cid.take 12 ++ ['_', t]
  else cid.take (12 - n.length) ++ '_' :: (n ++ ['_', t])

/-- The definedness condition of `generateNicNameL` (no Go slice-bound
panic). -/
def nicDom (cid n : List Char) : Prop :=
  (n = eth0L ∧ 12 ≤ cid.length) ∨
    (n ≠ eth0L ∧ n.length ≤ 12 ∧ 12 - n.length ≤ cid.length)

/-! ## Concrete test environments and inputs -/

/-- A link in the up state with unremarkable attributes. -/
def plainLink (n : String) : Link :=
  { name := n, index := 7, mtu := 1500, hwAddr := "aa:bb:cc:dd:ee:ff", operState := OperUp,
    kind := .other }

/-- An environment in which every lookup succeeds with a plain link and
every operation succeeds. -/
def allOkEnv : Env :=
  { linkByName := fun n => .found (plainLink n)
    linkByIndex := fun _ => .notFound
    addrList := fun _ => .ok []
    routeList := fun _ => .ok []
    sysctlGet := fun _ => .ok "0"
    sysctlSetOk := fun _ => true
    linkAddOk := fun _ => true
    linkDelOk := fun _ => true
    addrDelRes := fun _ _ => .ok
    addrAddOk := fun _ _ => true
    addrReplaceOk := fun _ _ => true
    linkSetHwOk := fun _ => true
    linkSetMTUOk := fun _ => true
    linkSetUpOk := fun _ => true
    linkSetDownOk := fun _ => true
    linkSetNameOk := fun _ => true
    linkSetAliasOk := fun _ => true
    linkSetNsFdOk := fun _ => true
    routeReplaceOk := fun _ => true
    ovsExecOk := fun _ => true
    ovsDelPortOk := fun _ => true
    arpingOk := fun _ _ _ => true
    pingOk := fun _ _ => true }

/-- Address `A` of claim C1: `10.0.0.2/24` as the kernel reports it. -/
def addrA : Addr := { ipStr := "10.0.0.2", maskStr := "ffffff00", linkLocal := false, label := "" }

/-- Address `B` of claim C1: `10.0.0.5/24` as the kernel reports it. -/
def addrB : Addr := { ipStr := "10.0.0.5", maskStr := "ffffff00", linkLocal := false, label := "" }

/-- Address `C` of claim C1: `10.0.0.6/24` as parsed from the request. -/
def addrC : Addr := { ipStr := "10.0.0.6", maskStr := "ffffff00", linkLocal := false, label := "" }

/-- Environment for claim C1: the link currently carries addresses A and
B. -/
def envC1 : Env :=
  { allOkEnv with addrList := fun _ => .ok [addrA, addrB] }

/-- A non-link-local provider address labelled after the uplink. -/
def addrP : Addr := { ipStr := "1.2.3.4", maskStr := "ffffff00", linkLocal := false, label := "eth1" }

/-- Environment for claim C2: the uplink carries one ordinary address and
every operation succeeds. -/
def envC2 : Env :=
  { allOkEnv with addrList := fun _ => .ok [addrP] }

/-- Environment for claim C6: the uplink `eth1` does not exist. -/
def envAbsent : Env :=
  { allOkEnv with linkByName := fun n => if n = "eth1" then .notFound else .found (plainLink n) }

/-- Environment for claims C8/C10: veth creation and echo probes fail,
everything else succeeds. -/
def envFail : Env :=
  { allOkEnv with linkAddOk := fun _ => false, pingOk := fun _ _ => false }

/-! ## Claim C1 — address reconciliation of `configureNic` -/

/-- C1 (code bug witness): with current addresses {A, B} = {10.0.0.2/24,
10.0.0.5/24} and requested "10.0.0.5/24,10.0.0.6/24", `configureNic`
deletes BOTH A and B and then re-adds B alongside C: the delete map is
keyed by `IP.String()+"/"+Mask.String()` where `Mask.String()` is
hexadecimal (`10.0.0.5/ffffff00`), while the requested strings use prefix
length (`10.0.0.5/24`), so the "Do not reassign same address for link"
match can never succeed and the unchanged address B is deleted and
re-added, contrary to the claim and to the code's own comment. -/
theorem configureNic_readds_unchanged_address :
    configureNic envC1 "eth0" "10.0.0.5/24,10.0.0.6/24" "00:00:00:00:00:01" 1400 =
      ([.addrDel "eth0" addrA, .addrDel "eth0" addrB, .addrAdd "eth0" addrB,
        .addrAdd "eth0" addrC, .linkSetHw "eth0" "00:00:00:00:00:01",
        .linkSetMTU "eth0" 1400], .ok ()) := by
  rfl

/-! ## Claim C2 — counterexample -/

/-- C2 (counterexample): on a fully successful run of `configProviderNic`
moving the single non-link-local address 1.2.3.4/24 from uplink `eth1` to
bridge `br-provider`, the claimed ordering — delete from the uplink only
after the address is installed on the bridge — is violated: the trace
deletes from the uplink first. -/
theorem configProviderNic_install_order_violated :
    installedBeforeDeleted "eth1" "br-provider" []
        (configProviderNic envC2 "eth1" "br-provider").1 = false ∧
      (configProviderNic envC2 "eth1" "br-provider").2 = .ok 1500 := by
  exact ⟨rfl, rfl⟩

/-! ## Claim C3 — counterexample -/

/-- C3 (counterexample): starting from an empty reaper memory, the sweep
sequence [["p"], [], ["p"]] deletes port "p" on the third sweep although
the second sweep observed no residual ports at all: the early return on
an empty residual list leaves the memory from sweep 1 in place, so the
claimed "deleted only if residual on the immediately preceding sweep" is
false. -/
theorem markAndClean_deletes_after_empty_sweep :
    deletedOnlyIfPrevResidual [] [["p"], [], ["p"]]
      (runSweeps allOkEnv [] [["p"], [], ["p"]]).1 = false := by
  rfl

/-! ## Claim C5 — counterexample -/

/-- C5 (counterexample): for the container identity token
"aaaaaaaaaa_a" (which contains an underscore), the two distinct interface
names "b" and "_b" produce identical host names and identical container
names, so the no-collision half of the claim is false as stated. -/
theorem generateNicName_collision :
    generateNicName "aaaaaaaaaa_a" "b" = some ("aaaaaaaaaa__b_h", "aaaaaaaaaa__b_c") ∧
      generateNicName "aaaaaaaaaa_a" "_b" = some ("aaaaaaaaaa__b_h", "aaaaaaaaaa__b_c") ∧
      "b" ≠ "_b" := by
  exact ⟨rfl, rfl, by decide⟩

/-- Looking up an index strictly below the length of a taken prefix reads
the original list. -/
theorem takeAppendLookup (cid : List Char) (k i : Nat) (rest : List Char)
    (hk : k ≤ cid.length) (hi : i < k) :
    (cid.take k ++ rest)[i]? = cid[i]? := by
  have hl : i < (cid.take k).length := by
    rw [List.length_take]
    omega
  rw [List.getElem?_append, if_pos hl, List.getElem?_take, if_pos hi]

/-- Looking up exactly the length of the left part of an append-cons reads
the cons head. -/
theorem appendConsLookup (xs : List Char) (y : Char) (rest : List Char) (i : Nat)
    (hi : i = xs.length) : (xs ++ y :: rest)[i]? = some y := by
  subst hi
  induction xs with
  | nil => simp
  | cons a t ih => simpa using ih

/-- Two non-primary interface names with different identity-prefix
boundaries encode to different names whenever the identity token contains
no underscore: the shorter boundary position holds an underscore in one
name and a token character in the other. -/
theorem nicEncode_ne_of_boundary_lt (cid n1 n2 : List Char) (t : Char)
    (hcid : ∀ c ∈ cid, c ≠ '_')
    (hn1 : n1 ≠ eth0L) (hn2 : n2 ≠ eth0L)
    (hk1 : 12 - n1.length ≤ cid.length)
    (hlt : 12 - n2.length < 12 - n1.length) :
    nicEncode cid n1 t ≠ nicEncode cid n2 t := by
  intro heq
  have e1 : (nicEncode cid n1 t)[12 - n2.length]? = cid[12 - n2.length]? := by
    unfold nicEncode
    rw [if_neg hn1]
    exact takeAppendLookup cid _ _ _ hk1 hlt
  have e2 : (nicEncode cid n2 t)[12 - n2.length]? = some '_' := by
    unfold nicEncode
    rw [if_neg hn2]
    refine appendConsLookup _ _ _ _ ?_
    rw [List.length_take]
    omega
  rw [heq, e2] at e1
  exact hcid '_' (List.getElem?_mem e1.symm) rfl

/-- On its domain and for an underscore-free identity token, the encoding
of `generateNicName` is injective in the interface name. -/
theorem nicEncode_inj (cid n1 n2 : List Char) (t : Char)
    (hcid : ∀ c ∈ cid, c ≠ '_')
    (h1 : nicDom cid n1) (h2 : nicDom cid n2)
    (heq : nicEncode cid n1 t = nicEncode cid n2 t) : n1 = n2 := by
  rcases h1 with ⟨he1, hlen1⟩ | ⟨hne1, hle1, hk1⟩
  · rcases h2 with ⟨he2, hlen2⟩ | ⟨hne2, hle2, hk2⟩
    · rw [he1, he2]
    · exfalso
      have hlen := congrArg List.length heq
      unfold nicEncode at hlen
      rw [if_pos he1, if_neg hne2] at hlen
      simp only [List.length_append, List.length_take, List.length_cons] at hlen
      omega
  · rcases h2 with ⟨he2, hlen2⟩ | ⟨hne2, hle2, hk2⟩
    · exfalso
      have hlen := congrArg List.length heq
      unfold nicEncode at hlen
      rw [if_neg hne1, if_pos he2] at hlen
      simp only [List.length_append, List.length_take, List.length_cons] at hlen
      omega
    · rcases Nat.lt_trichotomy (12 - n2.length) (12 - n1.length) with hlt | heqk | hgt
      · exact absurd heq (nicEncode_ne_of_boundary_lt cid n1 n2 t hcid hne1 hne2 hk1 hlt)
      · unfold nicEncode at heq
        rw [if_neg hne1, if_neg hne2] at heq
        rw [← heqk] at heq
        have h3 := List.append_cancel_left heq
        injection h3 with h4 h5
        exact List.append_cancel_right h5
      · exact absurd heq.symm
          (nicEncode_ne_of_boundary_lt cid n2 n1 t hcid hne2 hne1 hk2 hgt)

/-- C5 (amended): on its domain the Name Deriver deterministically follows
the rule host = token-prefix `_h` / container = token-prefix `_c` (non-
primary names insert `_<ifname>` before the suffix); and PROVIDED the
container identity token itself contains no underscore, two distinct
interface names never produce colliding host names or colliding container
names (without that proviso the collision counterexample above applies). -/
theorem generateNicName_amended :
    ∀ cid n1 n2 : List Char,
      nicDom cid n1 →
      generateNicNameL cid n1 = some (nicEncode cid n1 'h', nicEncode cid n1 'c') ∧
      ((∀ c ∈ cid, c ≠ '_') → nicDom cid n2 → n1 ≠ n2 →
        nicEncode cid n1 'h' ≠ nicEncode cid n2 'h' ∧
        nicEncode cid n1 'c' ≠ nicEncode cid n2 'c') := by
  intro cid n1 n2 h1
  constructor
  · rcases h1 with ⟨he, hlen⟩ | ⟨hne, hle, hk⟩
    · subst he
      simp [generateNicNameL, nicEncode, hlen]
    · simp [generateNicNameL, nicEncode, hne, hle, hk]
  · intro hcid h2 hne
    exact ⟨fun h => hne (nicEncode_inj cid n1 n2 'h' hcid h1 h2 h),
           fun h => hne (nicEncode_inj cid n1 n2 'c' hcid h1 h2 h)⟩

/-- Witness for the amended C5 theorem: an underscore-free 16-character
identity token with the distinct interface names `net1` and `eth0`. -/
theorem generateNicName_amended_witness :
    generateNicNameL "0123456789abcdef".toList "net1".toList =
      some (nicEncode "0123456789abcdef".toList "net1".toList 'h',
        nicEncode "0123456789abcdef".toList "net1".toList 'c') ∧
    nicEncode "0123456789abcdef".toList "net1".toList 'h' ≠
      nicEncode "0123456789abcdef".toList "eth0".toList 'h' ∧
    nicEncode "0123456789abcdef".toList "net1".toList 'c' ≠
      nicEncode "0123456789abcdef".toList "eth0".toList 'c' := by
  have h := generateNicName_amended "0123456789abcdef".toList "net1".toList
    "eth0".toList (Or.inr ⟨by decide, by decide, by decide⟩)
  exact ⟨h.1, h.2 (by decide) (Or.inl ⟨by decide, by decide⟩) (by decide)⟩

/-! ## Claim C6 — uplink absent -/

/-- C6 (counterexample): when the uplink `eth1` does not exist, the
detach direction succeeds but the attach direction
(`configProviderNic`) returns an error, so the claim that BOTH directions
treat an absent uplink as success is false. -/
theorem configProviderNic_errors_on_absent_uplink :
    (removeProviderNic envAbsent "eth1" "br1").2 = .ok () ∧
      exOkInt (configProviderNic envAbsent "eth1" "br1").2 = false := by
  exact ⟨rfl, rfl⟩

/-- C6 (amended): only the detach direction (`removeProviderNic`) treats
a non-existent uplink as success; the attach direction
(`configProviderNic`) returns an error for it. -/
theorem providerNic_absent_uplink_amended :
    ∀ env nicName brName,
      env.linkByName nicName = .notFound →
      removeProviderNic env nicName brName = ([], .ok ()) ∧
        configProviderNic env nicName brName = ([], .error "failed to get nic by name") := by
  intro env nicName brName h
  constructor
  · unfold removeProviderNic
    rw [h]
  · unfold configProviderNic
    rw [h]

/-- Witness for the amended C6 theorem at a concrete environment. -/
theorem providerNic_absent_uplink_witness :
    removeProviderNic envAbsent "eth1" "br1" = ([], .ok ()) ∧
      configProviderNic envAbsent "eth1" "br1" = ([], .error "failed to get nic by name") :=
  providerNic_absent_uplink_amended envAbsent "eth1" "br1" (by rfl)

/-! ## Claim C8 — `setupVethPair` cleanup -/

/-- C8: whenever creating the veth pair fails, `setupVethPair` attempts
to delete the half-created pair (the `linkDel` in the trace) before
returning, and it returns empty names together with a non-nil error (the
creation error, or the deletion error if the cleanup itself failed). -/
theorem setupVethPair_cleanup_on_failure :
    ∀ env containerID ifName mtu hostName contName,
      generateNicName containerID ifName = some (hostName, contName) →
      env.linkAddOk hostName = false →
      setupVethPair env containerID ifName mtu =
        some ([.linkAdd hostName (if mtu > 0 then mtu else 0), .linkDel hostName],
          ("", "",
           some (if env.linkDelOk hostName then "failed to create veth"
                 else "failed to delete veth"))) := by
  intro env containerID ifName mtu hostName contName hgen hadd
  unfold setupVethPair
  rw [hgen]
  cases h : env.linkDelOk hostName <;> simp [hadd, h]

/-- Witness for C8 at a concrete failing environment. -/
theorem setupVethPair_cleanup_witness :
    setupVethPair envFail "0123456789abcdef" "eth0" 1400 =
      some ([.linkAdd "0123456789ab_h" 1400, .linkDel "0123456789ab_h"],
        ("", "", some "failed to create veth")) := by
  have h := setupVethPair_cleanup_on_failure envFail "0123456789abcdef" "eth0" 1400
    "0123456789ab_h" "0123456789ab_c" (by rfl) (by rfl)
  simpa using h

/-! ## Claim C9 — partiality of the Name Deriver -/

/-- C9 (counterexample): a container identity token of only 8 characters
does NOT make `generateNicName` panic when the interface name is the
4-character non-primary name "net1" (8 = 12 - 4 suffices), so "panics for
every container identity token shorter than 12 characters" is false. -/
theorem generateNicName_short_id_no_panic :
    generateNicNameL "aaaaaaaa".toList "net1".toList =
      some ("aaaaaaaa_net1_h".toList, "aaaaaaaa_net1_c".toList) := by
  rfl

/-- C9 (amended): `generateNicName` panics exactly on Go's slice-bound
violations: always for a non-primary interface name longer than 12, for
the primary name when the token is shorter than 12, and for a non-primary
name of length l when the token is shorter than 12 - l; it is total when
the token has at least 12 characters and any non-primary name at most 12;
and with an exactly-12-character non-primary name the identity prefix is
empty, so the result does not depend on the token. -/
theorem generateNicName_partiality :
    ∀ cid n : List Char,
      (n ≠ eth0L → 12 < n.length → generateNicNameL cid n = none) ∧
        (cid.length < 12 → generateNicNameL cid eth0L = none) ∧
        (n ≠ eth0L → cid.length < 12 - n.length → generateNicNameL cid n = none) ∧
        (12 ≤ cid.length → n = eth0L ∨ n.length ≤ 12 →
          (generateNicNameL cid n).isSome = true) ∧
        (n ≠ eth0L → n.length = 12 →
          ∀ cid2, generateNicNameL cid n = generateNicNameL cid2 n) := by
  intro cid n
  refine ⟨?_, ?_, ?_, ?_, ?_⟩
  · intro hne hlen
    unfold generateNicNameL
    rw [if_neg hne, if_neg]
    rintro ⟨h1, _⟩
    omega
  · intro hshort
    unfold generateNicNameL
    rw [if_pos rfl, if_neg]
    omega
  · intro hne hshort
    unfold generateNicNameL
    rw [if_neg hne, if_neg]
    rintro ⟨_, h2⟩
    omega
  · intro hcid hor
    by_cases he : n = eth0L
    · subst he
      unfold generateNicNameL
      rw [if_pos rfl, if_pos hcid]
      rfl
    · have hlen : n.length ≤ 12 := hor.resolve_left he
      unfold generateNicNameL
      rw [if_neg he, if_pos ⟨hlen, by omega⟩]
      rfl
  · intro hne hlen cid2
    unfold generateNicNameL
    rw [if_neg hne, if_neg hne, hlen]
    simp

/-- Witness for the amended C9 theorem at concrete inputs. -/
theorem generateNicName_partiality_witness :
    generateNicNameL "abcdef012345".toList "verylongname123".toList = none ∧
      generateNicNameL "abc".toList eth0L = none ∧
      (generateNicNameL "abcdef012345".toList "net1".toList).isSome = true := by
  refine ⟨?_, ?_, ?_⟩
  · exact (generateNicName_partiality _ _).1 (by decide) (by decide)
  · exact (generateNicName_partiality "abc".toList eth0L).2.1 (by decide)
  · exact (generateNicName_partiality _ _).2.2.2.1 (by decide) (Or.inr (by decide))

/-! ## Claim C3 — amended two-generation property -/

/-- When every OVS port deletion succeeds, one sweep marks the residual
ports absent from the memory and deletes the ones present in it. -/
theorem sweepLoop_all_ok (env : Env) (hdel : ∀ q, env.ovsDelPortOk q = true)
    (mem : List String) :
    ∀ r, sweepLoop env mem r =
      (r.filter (fun q => !mem.contains q), r.filter (fun q => mem.contains q), none) := by
  intro r
  induction r with
  | nil => rfl
  | cons p rest ih =>
    by_cases hm : p ∈ mem
    · have h : mem.contains p = true := by simpa using hm
      simp [sweepLoop, h, hm, hdel p, ih, List.filter_cons]
    · have h : mem.contains p = false := by simpa using hm
      simp [sweepLoop, h, hm, ih, List.filter_cons]

/-- Counting a port in the deleted list of a successful sweep: a port in
the memory is deleted as often as it is residual. -/
theorem count_filter_mem (mem : List String) (p : String) (hp : p ∈ mem) :
    ∀ r : List String, (r.filter fun q => mem.contains q).count p = r.count p := by
  intro r
  induction r with
  | nil => rfl
  | cons a l ih =>
    rw [List.filter_cons]
    by_cases hm : a ∈ mem
    · have h : mem.contains a = true := by simpa using hm
      simp only [h]
      rw [if_pos trivial, List.count_cons, List.count_cons, ih]
    · have h : mem.contains a = false := by simpa using hm
      have hap : (a == p) = false := by
        by_cases hap : a = p
        · subst hap
          exact absurd hp hm
        · simpa using hap
      simp only [h]
      rw [if_neg (by simp), ih, List.count_cons, hap]
      simp

/-- C3 (amended): the reaper deletes a port on a sweep exactly when the
port is residual on that sweep AND present in the reaper memory, where
the memory after a nonempty sweep is the set of residual ports that were
not in the previous memory, and a sweep that observes NO residual ports
returns early and leaves the memory unchanged (instead of clearing it).
Consequently a port residual on a nonempty sweep and on the next sweep is
deleted there (as many times as it occurs in the residual list, so
exactly once for a duplicate-free list), while a port not in the memory
is never deleted. -/
theorem markAndCleanInternalPort_two_generation :
    ∀ env mem r p,
      (∀ q, env.ovsDelPortOk q = true) →
      markAndCleanInternalPort env mem [] = ([], mem, none) ∧
        (r ≠ [] →
          (p ∈ (markAndCleanInternalPort env mem r).1 ↔ p ∈ r ∧ p ∈ mem) ∧
            (markAndCleanInternalPort env mem r).2.1 =
              r.filter (fun q => !mem.contains q) ∧
            (p ∈ mem → (markAndCleanInternalPort env mem r).1.count p = r.count p)) := by
  intro env mem r p hdel
  constructor
  · rfl
  · intro hne
    have hempty : r.isEmpty = false := by
      cases r with
      | nil => exact absurd rfl hne
      | cons a l => rfl
    have hstep : markAndCleanInternalPort env mem r =
        (r.filter (fun q => mem.contains q), r.filter (fun q => !mem.contains q), none) := by
      unfold markAndCleanInternalPort
      rw [hempty, sweepLoop_all_ok env hdel mem r]
      rfl
    rw [hstep]
    refine ⟨?_, rfl, ?_⟩
    · simp [List.mem_filter]
    · intro hp
      exact count_filter_mem mem p hp r

/-- Witness for the amended C3 theorem: memory {"p"}, residual
["p", "q"] — "p" is deleted, the new memory is ["q"], the count is 1. -/
theorem markAndClean_two_generation_witness :
    markAndCleanInternalPort allOkEnv ["p"] [] = ([], ["p"], none) ∧
      (("p" ∈ (markAndCleanInternalPort allOkEnv ["p"] ["p", "q"]).1 ↔
          "p" ∈ ["p", "q"] ∧ "p" ∈ ["p"]) ∧
        (markAndCleanInternalPort allOkEnv ["p"] ["p", "q"]).2.1 =
          ["p", "q"].filter (fun q => !(List.contains ["p"] q)) ∧
        ("p" ∈ ["p"] →
          (markAndCleanInternalPort allOkEnv ["p"] ["p", "q"]).1.count "p" =
            ["p", "q"].count "p")) := by
  have h := markAndCleanInternalPort_two_generation allOkEnv ["p"] ["p", "q"] "p"
    (fun _ => rfl)
  exact ⟨h.1, h.2 (by decide)⟩

/-! ## Claim C10 — counterexample -/

/-- C10 (counterexample): with one address and two gateways — a gateway
list longer than the address list — `waitNetworkReady` does NOT panic
when the first (in-range) probe fails: it returns that probe's error, so
"panics for every such input" is false. -/
theorem waitNetworkReady_error_before_panic :
    (splitComma "10.0.0.5/24").length < (splitComma "10.0.0.1,fd00::1").length ∧
      (waitNetworkReady envFail "eth0" "10.0.0.5/24" "10.0.0.1,fd00::1" false false).2 =
        .fail "ping gateway failed" := by
  exact ⟨by decide, rfl⟩

/-! ## Lemmas on the `waitNetworkReady` loop -/

/-- One iteration of the probe loop when the address index is in range:
the probe op is emitted and the loop either continues (probe succeeded)
or returns the probe's error. -/
theorem waitLoop_step (env : Env) (nic : String) (ips : List String) (u : Bool)
    (gw : String) (rest : List String) (i : Nat) (hi : i < ips.length) :
    waitLoop env nic ips u (gw :: rest) i =
      (if probeOk env nic ips u gw i then
        ((if probeIsArping u gw then Op.arping nic ((splitSlash (ips.getD i "")).headD "") gw
          else Op.ping gw ((splitSlash (ips.getD i "")).headD "")) ::
            (waitLoop env nic ips u rest (i + 1)).1,
          (waitLoop env nic ips u rest (i + 1)).2)
       else
        ([if probeIsArping u gw then Op.arping nic ((splitSlash (ips.getD i "")).headD "") gw
          else Op.ping gw ((splitSlash (ips.getD i "")).headD "")],
          some (.err (if probeIsArping u gw then "network not ready"
                      else "ping gateway failed")))) := by
  have hsome : ips[i]? = some (ips.getD i "") := by
    rw [List.getElem?_eq_getElem hi]
    simp [List.getD, List.getElem?_eq_getElem hi]
  simp only [waitLoop]
  rw [hsome]
  cases hpa : probeIsArping u gw
  · cases hok : env.pingOk gw ((splitSlash (ips.getD i "")).headD "") <;>
      simp only [probeOk, hpa, hok, Bool.false_eq_true, if_false, if_true, tseq,
        List.singleton_append]
  · cases hok : env.arpingOk nic ((splitSlash (ips.getD i "")).headD "") gw <;>
      simp only [probeOk, hpa, hok, Bool.false_eq_true, if_false, if_true, tseq,
        List.singleton_append]

/-- The probe loop finishes without error or panic exactly when every
gateway's probe succeeds (provided the address list is long enough). -/
theorem waitLoop_none_iff (env : Env) (nic : String) (ips : List String) (u : Bool) :
    ∀ (gws : List String) (i : Nat), i + gws.length ≤ ips.length →
      ((waitLoop env nic ips u gws i).2 = none ↔
        ∀ j, j < gws.length → probeOk env nic ips u (gws.getD j "") (i + j) = true) := by
  intro gws
  induction gws with
  | nil =>
    intro i _
    simp [waitLoop, tdone]
  | cons gw rest ih =>
    intro i h
    have hi : i < ips.length := by
      simp only [List.length_cons] at h
      omega
    rw [waitLoop_step env nic ips u gw rest i hi]
    cases hok : probeOk env nic ips u gw i
    · simp only [hok, Bool.false_eq_true, if_false]
      constructor
      · intro hcon
        exact absurd hcon (by simp)
      · intro hall
        have h0 := hall 0 (by simp)
        simp only [Nat.add_zero] at h0
        have h0g : probeOk env nic ips u gw i = true := h0
        rw [hok] at h0g
        exact absurd h0g (by simp)
    · simp only [hok, if_true]
      rw [ih (i + 1) (by simp only [List.length_cons] at h; omega)]
      constructor
      · intro hall j hj
        cases j with
        | zero =>
          simpa using hok
        | succ j =>
          have hj2 : j < rest.length := by
            simp only [List.length_cons] at hj
            omega
          have hr := hall j hj2
          rw [show i + (j + 1) = (i + 1) + j by omega]
          exact hr
      · intro hall j hj
        have hr := hall (j + 1) (by simp only [List.length_cons]; omega)
        rw [show i + (j + 1) = (i + 1) + j by omega] at hr
        exact hr

/-- Every address-resolution op in the loop's trace comes from a gateway
selected for address resolution, and every echo op from one that was
not. -/
theorem waitLoop_ops_strategy (env : Env) (nic : String) (ips : List String) (u : Bool) :
    ∀ (gws : List String) (i : Nat),
      (∀ n s g, Op.arping n s g ∈ (waitLoop env nic ips u gws i).1 →
        probeIsArping u g = true) ∧
      (∀ g s, Op.ping g s ∈ (waitLoop env nic ips u gws i).1 →
        probeIsArping u g = false) := by
  intro gws
  induction gws with
  | nil =>
    intro i
    constructor
    · intro n s g hmem
      simp [waitLoop, tdone] at hmem
    · intro g s hmem
      simp [waitLoop, tdone] at hmem
  | cons gw rest ih =>
    intro i
    by_cases hi : i < ips.length
    · rw [waitLoop_step env nic ips u gw rest i hi]
      cases hok : probeOk env nic ips u gw i
      · cases hpa : probeIsArping u gw
        · simp only [hpa, Bool.false_eq_true, if_false]
          constructor
          · intro n s g hmem
            simp at hmem
          · intro g s hmem
            simp only [List.mem_singleton] at hmem
            cases hmem
            exact hpa
        · simp only [hpa, if_true, Bool.false_eq_true, if_false]
          constructor
          · intro n s g hmem
            simp only [List.mem_singleton] at hmem
            cases hmem
            exact hpa
          · intro g s hmem
            simp at hmem
      · cases hpa : probeIsArping u gw
        · simp only [hpa, Bool.false_eq_true, if_false, if_true]
          constructor
          · intro n s g hmem
            simp only [List.mem_cons] at hmem
            rcases hmem with hmem | hmem
            · cases hmem
            · exact (ih (i + 1)).1 n s g hmem
          · intro g s hmem
            simp only [List.mem_cons] at hmem
            rcases hmem with hmem | hmem
            · cases hmem
              exact hpa
            · exact (ih (i + 1)).2 g s hmem
        · simp only [hpa, if_true]
          constructor
          · intro n s g hmem
            simp only [List.mem_cons] at hmem
            rcases hmem with hmem | hmem
            · cases hmem
              exact hpa
            · exact (ih (i + 1)).1 n s g hmem
          · intro g s hmem
            simp only [List.mem_cons] at hmem
            rcases hmem with hmem | hmem
            · cases hmem
            · exact (ih (i + 1)).2 g s hmem
    · have hnone : ips[i]? = none := List.getElem?_eq_none (by omega)
      constructor
      · intro n s g hmem
        simp only [waitLoop] at hmem
        rw [hnone] at hmem
        simp at hmem
      · intro g s hmem
        simp only [waitLoop] at hmem
        rw [hnone] at hmem
        simp at hmem

/-- If every probe at an in-range index succeeds but gateways remain
beyond the address list, the loop hits the out-of-range index access. -/
theorem waitLoop_panic (env : Env) (nic : String) (ips : List String) (u : Bool) :
    ∀ (gws : List String) (i : Nat), i ≤ ips.length → ips.length < i + gws.length →
      (∀ j, i + j < ips.length → probeOk env nic ips u (gws.getD j "") (i + j) = true) →
      (waitLoop env nic ips u gws i).2 = some .panicOOR := by
  intro gws
  induction gws with
  | nil =>
    intro i h1 h2 _
    exact absurd h2 (by simp; omega)
  | cons gw rest ih =>
    intro i h1 h2 hall
    rcases Nat.lt_or_ge i ips.length with hi | hi
    · rw [waitLoop_step env nic ips u gw rest i hi]
      have h0 := hall 0 (by omega)
      simp only [Nat.add_zero] at h0
      have h0g : probeOk env nic ips u gw i = true := h0
      simp only [h0g, if_true]
      apply ih (i + 1) (by omega) (by simp only [List.length_cons] at h2 ⊢; omega)
      intro j hj
      have hr := hall (j + 1) (by omega)
      rw [show i + (j + 1) = (i + 1) + j by omega] at hr
      exact hr
    · have hnone : ips[i]? = none := List.getElem?_eq_none (by omega)
      unfold waitLoop
      rw [hnone]

/-- With enough addresses for the gateways, the loop never panics. -/
theorem waitLoop_no_panic (env : Env) (nic : String) (ips : List String) (u : Bool) :
    ∀ (gws : List String) (i : Nat), i + gws.length ≤ ips.length →
      (waitLoop env nic ips u gws i).2 ≠ some .panicOOR := by
  intro gws
  induction gws with
  | nil =>
    intro i _
    simp [waitLoop, tdone]
  | cons gw rest ih =>
    intro i h
    have hi : i < ips.length := by
      simp only [List.length_cons] at h
      omega
    rw [waitLoop_step env nic ips u gw rest i hi]
    cases hok : probeOk env nic ips u gw i
    · simp
    · simp only [if_true]
      exact ih (i + 1) (by simp only [List.length_cons] at h; omega)

/-- Reading `stopToRRes` back. -/
theorem stopToRRes_eq_ok (o : Option Stop) : stopToRRes o = .ok ↔ o = none := by
  cases o with
  | none => simp [stopToRRes]
  | some e => cases e <;> simp [stopToRRes]

/-! ## Claim C7 — probe strategy selection and gating -/

/-- C7: for every gateway the Reachability Prober uses the
address-resolution probe exactly when the underlay flag is set and that
gateway is IPv4, and the echo probe otherwise; it succeeds exactly when
every gateway's (budget-bounded) probe succeeds, so a single exhausted
probe budget fails the whole call. -/
theorem waitNetworkReady_probe_selection :
    ∀ env nic ipAddr gateway u v,
      (splitComma gateway).length ≤ (splitComma ipAddr).length →
      ((∀ n s g, Op.arping n s g ∈ (waitNetworkReady env nic ipAddr gateway u v).1 →
          u = true ∧ CheckProtocol g = .ipv4) ∧
        (∀ g s, Op.ping g s ∈ (waitNetworkReady env nic ipAddr gateway u v).1 →
          ¬(u = true ∧ CheckProtocol g = .ipv4)) ∧
        ((waitNetworkReady env nic ipAddr gateway u v).2 = .ok ↔
          ∀ j, j < (splitComma gateway).length →
            probeOk env nic (splitComma ipAddr) u ((splitComma gateway).getD j "") j = true)) := by
  intro env nic ipAddr gateway u v hlen
  refine ⟨?_, ?_, ?_⟩
  · intro n s g hmem
    have h := (waitLoop_ops_strategy env nic (splitComma ipAddr) u (splitComma gateway) 0).1
      n s g hmem
    simpa [probeIsArping] using h
  · intro g s hmem
    have h := (waitLoop_ops_strategy env nic (splitComma ipAddr) u (splitComma gateway) 0).2
      g s hmem
    simp only [probeIsArping] at h
    intro hcon
    rw [hcon.1, hcon.2] at h
    simp at h
  · rw [show (waitNetworkReady env nic ipAddr gateway u v).2 =
        stopToRRes (waitLoop env nic (splitComma ipAddr) u (splitComma gateway) 0).2 from rfl]
    rw [stopToRRes_eq_ok]
    rw [waitLoop_none_iff env nic (splitComma ipAddr) u (splitComma gateway) 0
      (by simpa using hlen)]
    constructor
    · intro h j hj
      have := h j hj
      simpa using this
    · intro h j hj
      have := h j hj
      simpa using this

/-- Witness for C7: a single-family overlay request probed by ping. -/
theorem waitNetworkReady_probe_selection_witness :
    (∀ n s g, Op.arping n s g ∈
        (waitNetworkReady allOkEnv "eth0" "10.0.0.5/24" "10.0.0.1" false false).1 →
        false = true ∧ CheckProtocol g = .ipv4) ∧
      (∀ g s, Op.ping g s ∈
        (waitNetworkReady allOkEnv "eth0" "10.0.0.5/24" "10.0.0.1" false false).1 →
        ¬(false = true ∧ CheckProtocol g = .ipv4)) ∧
      ((waitNetworkReady allOkEnv "eth0" "10.0.0.5/24" "10.0.0.1" false false).2 = .ok ↔
        ∀ j, j < (splitComma "10.0.0.1").length →
          probeOk allOkEnv "eth0" (splitComma "10.0.0.5/24") false
            ((splitComma "10.0.0.1").getD j "") j = true) :=
  waitNetworkReady_probe_selection allOkEnv "eth0" "10.0.0.5/24" "10.0.0.1" false false
    (by decide)

/-! ## Claim C10 — amended overflow behaviour -/

/-- C10 (amended): when the gateway list is longer than the address list,
`waitNetworkReady` panics (index out of range) exactly if every probe at
an in-range index succeeds — an earlier in-range probe failure returns
that error first; and with at least as many addresses as gateways it
never panics, for any probe outcomes. -/
theorem waitNetworkReady_gateway_overflow :
    ∀ env nic ipAddr gateway u v,
      ((splitComma ipAddr).length < (splitComma gateway).length →
        (∀ j, j < (splitComma ipAddr).length →
          probeOk env nic (splitComma ipAddr) u ((splitComma gateway).getD j "") j = true) →
        (waitNetworkReady env nic ipAddr gateway u v).2 = .panicOOR) ∧
      ((splitComma gateway).length ≤ (splitComma ipAddr).length →
        (waitNetworkReady env nic ipAddr gateway u v).2 ≠ .panicOOR) := by
  intro env nic ipAddr gateway u v
  constructor
  · intro hlt hall
    have h := waitLoop_panic env nic (splitComma ipAddr) u (splitComma gateway) 0
      (by omega) (by simpa using hlt) ?_
    · rw [show (waitNetworkReady env nic ipAddr gateway u v).2 =
          stopToRRes (waitLoop env nic (splitComma ipAddr) u (splitComma gateway) 0).2 from rfl]
      rw [h]
      rfl
    · intro j hj
      have := hall j (by simpa using hj)
      simpa using this
  · intro hle
    have h := waitLoop_no_panic env nic (splitComma ipAddr) u (splitComma gateway) 0
      (by simpa using hle)
    rw [show (waitNetworkReady env nic ipAddr gateway u v).2 =
        stopToRRes (waitLoop env nic (splitComma ipAddr) u (splitComma gateway) 0).2 from rfl]
    cases hcase : (waitLoop env nic (splitComma ipAddr) u (splitComma gateway) 0).2 with
    | none => simp [stopToRRes]
    | some e =>
      cases e with
      | err m => simp [stopToRRes]
      | panicOOR => exact absurd hcase h

/-- Witness for the amended C10 theorem: one address, two gateways, all
probes succeeding — the call panics; and with matching lengths it does
not. -/
theorem waitNetworkReady_gateway_overflow_witness :
    (waitNetworkReady allOkEnv "eth0" "10.0.0.5/24" "10.0.0.1,fd00::1" false false).2 =
        .panicOOR ∧
      (waitNetworkReady allOkEnv "eth0" "10.0.0.5/24" "10.0.0.1" false false).2 ≠ .panicOOR :=
  ⟨(waitNetworkReady_gateway_overflow allOkEnv "eth0" "10.0.0.5/24" "10.0.0.1,fd00::1"
      false false).1 (by decide) (by decide),
    (waitNetworkReady_gateway_overflow allOkEnv "eth0" "10.0.0.5/24" "10.0.0.1"
      false false).2 (by decide)⟩

/-! ## Lemmas on traces: membership and the delete-then-install order -/

/-- The first projection of `finishInt` is the body's trace. -/
theorem finishInt_fst (bd : TraceM) (v : Int) : (finishInt bd v).1 = bd.1 := by
  obtain ⟨ops, stop⟩ := bd
  cases stop with
  | none => rfl
  | some e => cases e <;> rfl

/-- The first projection of `finishUnit` is the body's trace. -/
theorem finishUnit_fst (bd : TraceM) : (finishUnit bd).1 = bd.1 := by
  obtain ⟨ops, stop⟩ := bd
  cases stop with
  | none => rfl
  | some e => cases e <;> rfl

/-- An operation of a sequenced trace comes from one of the parts. -/
theorem mem_tseq (a : TraceM) (b : Unit → TraceM) (op : Op) :
    op ∈ (tseq a b).1 → op ∈ a.1 ∨ op ∈ (b ()).1 := by
  obtain ⟨ops, stop⟩ := a
  cases stop with
  | none =>
    intro h
    exact List.mem_append.mp h
  | some e =>
    intro h
    exact Or.inl h

/-- The trace of a `boolStep` is its single operation. -/
theorem mem_boolStep (op0 : Op) (ok : Bool) (msg : String) (op : Op) :
    op ∈ (boolStep op0 ok msg).1 → op = op0 := by
  unfold boolStep
  split <;> simp

/-- `relabel` changes only the label. -/
theorem relabel_ipStr (a : Addr) (f t : String) : (relabel a f t).ipStr = a.ipStr := by
  unfold relabel
  split <;> rfl

/-- `relabel` changes only the label. -/
theorem relabel_maskStr (a : Addr) (f t : String) : (relabel a f t).maskStr = a.maskStr := by
  unfold relabel
  split <;> rfl

/-- Splitting the delete-then-install scan at a trace concatenation. -/
theorem deletedBeforeInstalled_append (f t : String) :
    ∀ (xs ys : List Op) (seen : List Addr),
      deletedBeforeInstalled f t seen (xs ++ ys) =
        (deletedBeforeInstalled f t seen xs &&
          deletedBeforeInstalled f t (collectDels f seen xs) ys) := by
  intro xs
  induction xs with
  | nil =>
    intro ys seen
    simp [deletedBeforeInstalled, collectDels]
  | cons op rest ih =>
    intro ys seen
    cases op
    case addrDel l a =>
      simp only [List.cons_append, deletedBeforeInstalled, collectDels, List.append_eq]
      exact ih ys _
    case addrReplace l a =>
      simp only [List.cons_append, deletedBeforeInstalled, collectDels, List.append_eq]
      by_cases hl : l = t
      · rw [if_pos hl, if_pos hl, ih ys seen, Bool.and_assoc]
      · rw [if_neg hl, if_neg hl]
        exact ih ys seen
    all_goals
      simp only [List.cons_append, deletedBeforeInstalled, collectDels, List.append_eq]
    all_goals
      exact ih ys seen

/-- A trace with no bridge-side installation trivially satisfies the
delete-then-install order. -/
theorem deletedBeforeInstalled_no_replace (f t : String) :
    ∀ ops : List Op, (∀ l a, Op.addrReplace l a ∉ ops) →
      ∀ seen, deletedBeforeInstalled f t seen ops = true := by
  intro ops
  induction ops with
  | nil =>
    intro _ seen
    rfl
  | cons op rest ih =>
    intro h seen
    have hrest : ∀ l a, Op.addrReplace l a ∉ rest := by
      intro l a hmem
      exact h l a (List.mem_cons_of_mem _ hmem)
    cases op
    case addrReplace l a =>
      exact absurd (List.mem_cons_self _ _) (h l a)
    all_goals
      simp only [deletedBeforeInstalled]
    all_goals
      exact ih hrest _

/-- The delete-then-install order is preserved by sequencing. -/
theorem deletedBeforeInstalled_tseq (f t : String) (a : TraceM) (b : Unit → TraceM)
    (ha : ∀ seen, deletedBeforeInstalled f t seen a.1 = true)
    (hb : ∀ seen, deletedBeforeInstalled f t seen (b ()).1 = true) :
    ∀ seen, deletedBeforeInstalled f t seen (tseq a b).1 = true := by
  intro seen
  obtain ⟨ops, stop⟩ := a
  cases stop with
  | some e => exact ha seen
  | none =>
    show deletedBeforeInstalled f t seen (ops ++ (b ()).1) = true
    rw [deletedBeforeInstalled_append, ha seen, hb _]
    rfl

/-- The freshly deleted address always matches its own relabelled copy. -/
theorem any_sameIpMask_relabel (a : Addr) (f t : String) (seen : List Addr) :
    (a :: seen).any (fun b => sameIpMask b (relabel a f t)) = true := by
  have h1 : sameIpMask a (relabel a f t) = true := by
    simp [sameIpMask, relabel_ipStr, relabel_maskStr]
  simp [List.any_cons, h1]

/-- The address-move loop itself only installs an address on the target
after deleting it from the source. -/
theorem deletedBeforeInstalled_moveAddrs (env : Env) (f t m1 m2 : String) :
    ∀ (addrs : List Addr) (seen : List Addr),
      deletedBeforeInstalled f t seen (moveAddrs env f t m1 m2 addrs).1 = true := by
  intro addrs
  induction addrs with
  | nil =>
    intro seen
    rfl
  | cons a rest ih =>
    intro seen
    cases hll : a.linkLocal
    · simp only [moveAddrs, hll, Bool.false_eq_true, if_false]
      cases hdel : env.addrDelRes f a
      · cases hrep : env.addrReplaceOk t (relabel a f t)
        · simp only [Bool.false_eq_true, if_false, deletedBeforeInstalled, eq_self_iff_true,
            if_true, any_sameIpMask_relabel, Bool.true_and, Bool.and_true]
        · simp only [if_true, tseq, deletedBeforeInstalled, List.cons_append,
            List.nil_append, eq_self_iff_true, if_true, any_sameIpMask_relabel, Bool.true_and]
          exact ih _
      · simp only [deletedBeforeInstalled, tseq, List.singleton_append, eq_self_iff_true,
          if_true]
        exact ih _
      · rfl
    · simp only [moveAddrs, hll, if_true]
      exact ih seen

/-- No operation of a route-replay inner loop installs an address. -/
theorem replayRoutesScope_no_replace (env : Env) (idx : Int) (scope : Nat) :
    ∀ (routes : List Route) (l : String) (a : Addr),
      Op.addrReplace l a ∉ (replayRoutesScope env idx scope routes).1 := by
  intro routes
  induction routes with
  | nil =>
    intro l a
    simp [replayRoutesScope, tdone]
  | cons r rest ih =>
    intro l a
    simp only [replayRoutesScope]
    split
    · exact ih l a
    · split
      · intro hmem
        rcases mem_tseq _ _ _ hmem with h | h
        · exact absurd (mem_boolStep _ _ _ _ h) (by simp)
        · exact ih l a h
      · exact ih l a

/-- No operation of the route replay installs an address. -/
theorem replayRoutes_no_replace (env : Env) (idx : Int) :
    ∀ (scopes : List Nat) (routes : List Route) (l : String) (a : Addr),
      Op.addrReplace l a ∉ (replayRoutes env idx scopes routes).1 := by
  intro scopes
  induction scopes with
  | nil =>
    intro routes l a
    simp [replayRoutes, tdone]
  | cons s rest ih =>
    intro routes l a
    intro hmem
    rcases mem_tseq _ _ _ hmem with h | h
    · exact replayRoutesScope_no_replace env idx s routes l a h
    · exact ih routes l a h

/-! ## Lemmas for the default-route analysis -/

/-- A successful sequence means both parts succeeded. -/
theorem tseq_snd_none (a : TraceM) (b : Unit → TraceM) (h : (tseq a b).2 = none) :
    a.2 = none ∧ (b ()).2 = none := by
  obtain ⟨ops, stop⟩ := a
  cases stop with
  | none => exact ⟨rfl, h⟩
  | some e => simp [tseq] at h

/-- The trace of a sequence whose first part succeeded. -/
theorem tseq_fst_of_none (a : TraceM) (b : Unit → TraceM) (h : a.2 = none) :
    (tseq a b).1 = a.1 ++ (b ()).1 := by
  obtain ⟨ops, stop⟩ := a
  cases stop with
  | none => rfl
  | some e => simp at h

/-- `defRouteOps` distributes over concatenation. -/
theorem defRouteOps_append (xs ys : List Op) :
    defRouteOps (xs ++ ys) = defRouteOps xs ++ defRouteOps ys := by
  simp [defRouteOps, List.filter_append]

/-- A trace without default-route installations filters to nothing. -/
theorem defRouteOps_eq_nil (ops : List Op) (h : ∀ op ∈ ops, isDefRouteOp op = false) :
    defRouteOps ops = [] := by
  rw [defRouteOps, List.filter_eq_nil_iff]
  intro a ha
  simp [h a ha]

/-- A boolean step with a non-default-route operation contributes no
default route. -/
theorem defRouteOps_boolStep (op0 : Op) (ok : Bool) (msg : String)
    (h : isDefRouteOp op0 = false) : defRouteOps (boolStep op0 ok msg).1 = [] := by
  apply defRouteOps_eq_nil
  intro op hop
  rw [mem_boolStep op0 ok msg op hop]
  exact h

/-- Membership in the trace of an if-then-else. -/
theorem mem_ite_trace {c : Prop} [Decidable c] (x y : TraceM) (op : Op) :
    op ∈ (if c then x else y).1 → op ∈ x.1 ∨ op ∈ y.1 := by
  split
  · exact fun h => Or.inl h
  · exact fun h => Or.inr h

/-- The deletion loop of the reconciliation emits only `addrDel`. -/
theorem runDels_ops (env : Env) (link : String) :
    ∀ (addrs : List Addr) (op : Op), op ∈ (runDels env link addrs).1 →
      ∃ a, op = Op.addrDel link a := by
  intro addrs
  induction addrs with
  | nil =>
    intro op hop
    simp [runDels, tdone] at hop
  | cons a rest ih =>
    intro op hop
    simp only [runDels] at hop
    cases hdel : env.addrDelRes link a <;> rw [hdel] at hop
    · rcases mem_tseq _ _ _ hop with h | h
      · simp only [List.mem_singleton] at h
        exact ⟨a, h⟩
      · exact ih op h
    · simp only [List.mem_singleton] at hop
      exact ⟨a, hop⟩
    · simp only [List.mem_singleton] at hop
      exact ⟨a, hop⟩

/-- The addition loop of the reconciliation emits only `addrAdd`. -/
theorem runAdds_ops (env : Env) (link : String) :
    ∀ (addrs : List Addr) (op : Op), op ∈ (runAdds env link addrs).1 →
      ∃ a, op = Op.addrAdd link a := by
  intro addrs
  induction addrs with
  | nil =>
    intro op hop
    simp [runAdds, tdone] at hop
  | cons a rest ih =>
    intro op hop
    simp only [runAdds] at hop
    cases hadd : env.addrAddOk link a <;> rw [hadd] at hop
    · simp only [Bool.false_eq_true, if_false, List.mem_singleton] at hop
      exact ⟨a, hop⟩
    · simp only [if_true] at hop
      rcases mem_tseq _ _ _ hop with h | h
      · simp only [List.mem_singleton] at h
        exact ⟨a, h⟩
      · exact ih op h

/-- The address reconciliation installs no route at all. -/
theorem configureNicT_no_defroute (env : Env) (link ip mac : String) (mtu : Int) :
    ∀ op ∈ (configureNicT env link ip mac mtu).1, isDefRouteOp op = false := by
  intro op hop
  unfold configureNicT at hop
  cases h1 : env.linkByName link <;> rw [h1] at hop <;> dsimp only at hop
  case notFound => simp at hop
  case otherErr => simp at hop
  case found nodeLink =>
    cases h2 : env.addrList link <;> rw [h2] at hop <;> dsimp only at hop
    case error e => simp at hop
    case ok ipAddrs =>
      cases h3 : buildAddPlan (buildDelMap ipAddrs) (splitComma ip) <;> rw [h3] at hop <;>
        dsimp only at hop
      case error e => simp at hop
      case ok pr =>
        obtain ⟨delMap, adds⟩ := pr
        dsimp only at hop
        rcases mem_tseq _ _ _ hop with h | h
        · obtain ⟨a, rfl⟩ := runDels_ops env link _ op h
          rfl
        rcases mem_tseq _ _ _ h with h | h
        · obtain ⟨a, rfl⟩ := runAdds_ops env link _ op h
          rfl
        rcases mem_tseq _ _ _ h with h | h
        · rw [mem_boolStep _ _ _ _ h]
          rfl
        rcases mem_tseq _ _ _ h with h | h
        · rcases mem_ite_trace _ _ _ h with h | h
          · rw [mem_boolStep _ _ _ _ h]
            rfl
          · simp [tdone] at h
        · rcases mem_ite_trace _ _ _ h with h | h
          · rw [mem_boolStep _ _ _ _ h]
            rfl
          · simp [tdone] at h

/-- `configureAdditionalNic` installs no route. -/
theorem configureAdditionalNicT_no_defroute (env : Env) (link ip : String) :
    ∀ op ∈ (configureAdditionalNicT env link ip).1, isDefRouteOp op = false := by
  intro op hop
  unfold configureAdditionalNicT at hop
  cases h1 : env.linkByName link <;> rw [h1] at hop <;> dsimp only at hop
  case notFound => simp at hop
  case otherErr => simp at hop
  case found nodeLink =>
    cases h2 : env.addrList link <;> rw [h2] at hop <;> dsimp only at hop
    case error e => simp at hop
    case ok ipAddrs =>
      cases h3 : buildAddPlan (buildDelMap ipAddrs) (splitComma ip) <;> rw [h3] at hop <;>
        dsimp only at hop
      case error e => simp at hop
      case ok pr =>
        obtain ⟨delMap, adds⟩ := pr
        dsimp only at hop
        rcases mem_tseq _ _ _ hop with h | h
        · obtain ⟨a, rfl⟩ := runDels_ops env link _ op h
          rfl
        · obtain ⟨a, rfl⟩ := runAdds_ops env link _ op h
          rfl

/-- `addAdditionalNic` installs no route. -/
theorem addAdditionalNicT_no_defroute (env : Env) (ifName : String) :
    ∀ op ∈ (addAdditionalNicT env ifName).1, isDefRouteOp op = false := by
  intro op hop
  unfold addAdditionalNicT at hop
  split at hop
  · simp only [List.mem_singleton] at hop
    rw [hop]
    rfl
  · split at hop <;>
      · rcases List.mem_cons.mp hop with h | h
        · rw [h]
          rfl
        · simp only [List.mem_singleton] at h
          rw [h]
          rfl

/-- The IPv6 sysctl step installs no route. -/
theorem ipv6SysctlStep_no_defroute (env : Env) (ipAddr : String) :
    ∀ op ∈ (ipv6SysctlStep env ipAddr).1, isDefRouteOp op = false := by
  intro op hop
  unfold ipv6SysctlStep at hop
  split at hop
  · cases h : env.sysctlGet "net.ipv6.conf.all.disable_ipv6" <;> rw [h] at hop <;>
      dsimp only at hop
    · simp at hop
    · split at hop
      · rw [mem_boolStep _ _ _ _ hop]
        rfl
      · simp [tdone] at hop
  · simp [tdone] at hop

/-- The probe loop emits only probe operations, never routes. -/
theorem waitLoop_no_defroute (env : Env) (nic : String) (ips : List String) (u : Bool) :
    ∀ (gws : List String) (i : Nat) (op : Op),
      op ∈ (waitLoop env nic ips u gws i).1 → isDefRouteOp op = false := by
  intro gws
  induction gws with
  | nil =>
    intro i op hop
    simp [waitLoop, tdone] at hop
  | cons gw rest ih =>
    intro i op hop
    simp only [waitLoop] at hop
    cases hq : ips[i]? <;> rw [hq] at hop <;> dsimp only at hop
    · simp at hop
    · split at hop
      · split at hop
        · rcases mem_tseq _ _ _ hop with h | h
          · simp only [List.mem_singleton] at h
            rw [h]
            rfl
          · exact ih (i + 1) op h
        · simp only [List.mem_singleton] at hop
          rw [hop]
          rfl
      · split at hop
        · rcases mem_tseq _ _ _ hop with h | h
          · simp only [List.mem_singleton] at h
            rw [h]
            rfl
          · exact ih (i + 1) op h
        · simp only [List.mem_singleton] at hop
          rw [hop]
          rfl

/-- `parseCIDR` keeps the literal string. -/
theorem parseCIDR_eq (s d : String) (h : parseCIDR s = some d) : d = s := by
  unfold parseCIDR at h
  split at h
  · split at h
    · split at h
      · cases h
        rfl
      · cases h
    · cases h
  · cases h

/-- The static-route loop installs no default route when no requested
destination is a default destination. -/
theorem installStaticRoutes_no_defroute (env : Env) (idx : Int) :
    ∀ routes : List ReqRoute,
      (∀ r ∈ routes, r.destination ≠ "0.0.0.0/0" ∧ r.destination ≠ "::/0") →
      ∀ op ∈ (installStaticRoutes env idx routes).1, isDefRouteOp op = false := by
  intro routes
  induction routes with
  | nil =>
    intro _ op hop
    simp [installStaticRoutes, tdone] at hop
  | cons r rest ih =>
    intro hr op hop
    have hrest : ∀ q ∈ rest, q.destination ≠ "0.0.0.0/0" ∧ q.destination ≠ "::/0" := by
      intro q hq
      exact hr q (List.mem_cons_of_mem _ hq)
    simp only [installStaticRoutes] at hop
    cases hp : parseCIDR r.destination <;> rw [hp] at hop <;> dsimp only at hop
    · exact ih hrest op hop
    · rename_i dst
      split at hop
      · exact ih hrest op hop
      · rcases mem_tseq _ _ _ hop with h | h
        · simp only [List.mem_singleton] at h
          rw [h]
          have hd : dst = r.destination := parseCIDR_eq _ _ hp
          have h1 := (hr r (List.mem_cons_self _ _)).1
          have h2 := (hr r (List.mem_cons_self _ _)).2
          simp [isDefRouteOp, hd, h1, h2]
        · exact ih hrest op h

/-- Every operation of the default-route block is a default-route
installation. -/
theorem defRouteOps_installDefaultRoutes (env : Env) (idx : Int) (ipAddr gateway : String) :
    defRouteOps (installDefaultRoutes env idx ipAddr gateway).1 =
      (installDefaultRoutes env idx ipAddr gateway).1 := by
  unfold installDefaultRoutes
  cases CheckProtocol ipAddr <;> dsimp only
  case ipv4 =>
    unfold boolStep
    split <;> simp [defRouteOps, List.filter, isDefRouteOp, defaultRoute4]
  case ipv6 =>
    unfold boolStep
    split <;> simp [defRouteOps, List.filter, isDefRouteOp, defaultRoute6]
  case dual =>
    split
    · simp [defRouteOps, List.filter, isDefRouteOp, defaultRoute4]
    · split
      · simp [defRouteOps, List.filter, isDefRouteOp, defaultRoute4]
      · dsimp only [tseq]
        unfold boolStep
        split <;> simp [defRouteOps, List.filter, isDefRouteOp, defaultRoute4, defaultRoute6]
  case unknown => rfl

/-- The default-route block for a dual-stack request, when it succeeds,
emits exactly the v4-then-v6 route replacements with the matching-index
gateways. -/
theorem installDefaultRoutes_dual (env : Env) (idx : Int) (ipAddr gateway g4 g6 : String)
    (hproto : CheckProtocol ipAddr = .dual) (hgws : splitComma gateway = [g4, g6])
    (hok : (installDefaultRoutes env idx ipAddr gateway).2 = none) :
    (installDefaultRoutes env idx ipAddr gateway).1 =
      [Op.routeReplace (defaultRoute4 (parseIP g4) idx),
        Op.routeReplace (defaultRoute6 (parseIP g6) idx)] := by
  unfold installDefaultRoutes at hok ⊢
  rw [hproto] at hok ⊢
  dsimp only at hok ⊢
  rw [hgws] at hok ⊢
  have e0 : ([g4, g6] : List String).getD 0 "" = g4 := rfl
  have e1 : ([g4, g6] : List String)[1]? = some g6 := rfl
  rw [e0, e1] at hok ⊢
  cases hr4 : env.routeReplaceOk (defaultRoute4 (parseIP g4) idx)
  · simp [hr4] at hok
  · simp only [hr4, Bool.not_true, Bool.false_eq_true, if_false] at hok ⊢
    cases hr6 : env.routeReplaceOk (defaultRoute6 (parseIP g6) idx)
    · simp [tseq, boolStep, hr6] at hok
    · simp [tseq, boolStep, hr6]

/-- The default-route block for a single-family IPv4 request, when it
succeeds, emits exactly one v4 route replacement via the gateway. -/
theorem installDefaultRoutes_v4 (env : Env) (idx : Int) (ipAddr gateway : String)
    (hproto : CheckProtocol ipAddr = .ipv4)
    (hok : (installDefaultRoutes env idx ipAddr gateway).2 = none) :
    (installDefaultRoutes env idx ipAddr gateway).1 =
      [Op.routeReplace (defaultRoute4 (parseIP gateway) idx)] := by
  unfold installDefaultRoutes at hok ⊢
  rw [hproto] at hok ⊢
  dsimp only at hok ⊢
  cases hr : env.routeReplaceOk (defaultRoute4 (parseIP gateway) idx)
  · simp [boolStep, hr] at hok
  · simp [boolStep, hr]

/-- The default-route block for a single-family IPv6 request, when it
succeeds, emits exactly one v6 route replacement via the gateway. -/
theorem installDefaultRoutes_v6 (env : Env) (idx : Int) (ipAddr gateway : String)
    (hproto : CheckProtocol ipAddr = .ipv6)
    (hok : (installDefaultRoutes env idx ipAddr gateway).2 = none) :
    (installDefaultRoutes env idx ipAddr gateway).1 =
      [Op.routeReplace (defaultRoute6 (parseIP gateway) idx)] := by
  unfold installDefaultRoutes at hok ⊢
  rw [hproto] at hok ⊢
  dsimp only at hok ⊢
  cases hr : env.routeReplaceOk (defaultRoute6 (parseIP gateway) idx)
  · simp [boolStep, hr] at hok
  · simp [boolStep, hr]

/-- On a successful run with the default-route flag set, the
default-route installations of `configureContainerNic` are exactly those
of its default-route block (which itself succeeded). -/
theorem configureContainerNic_defroutes_core
    (env : Env) (nicName ifName ipAddr gateway : String) (routes : List ReqRoute)
    (macAddr : String) (mtu : Int) (nicType : String) (gwCheckMode : Int) (L : Link)
    (hL : env.linkByName nicName = .found L)
    (hroutes : ∀ r ∈ routes, r.destination ≠ "0.0.0.0/0" ∧ r.destination ≠ "::/0")
    (hok : (configureContainerNic env nicName ifName ipAddr gateway true routes macAddr mtu
      nicType gwCheckMode).2 = .ok) :
    defRouteOps (configureContainerNic env nicName ifName ipAddr gateway true routes macAddr mtu
        nicType gwCheckMode).1 =
      (installDefaultRoutes env L.index ipAddr gateway).1 ∧
      (installDefaultRoutes env L.index ipAddr gateway).2 = none := by
  unfold configureContainerNic at hok ⊢
  rw [hL] at hok ⊢
  dsimp only at hok ⊢
  rw [stopToRRes_eq_ok] at hok
  obtain ⟨hA, h1⟩ := tseq_snd_none _ _ hok
  obtain ⟨hB, h2⟩ := tseq_snd_none _ _ h1
  obtain ⟨hC, h3⟩ := tseq_snd_none _ _ h2
  obtain ⟨hD, h4⟩ := tseq_snd_none _ _ h3
  obtain ⟨hE, h5⟩ := tseq_snd_none _ _ h4
  obtain ⟨hF, h6⟩ := tseq_snd_none _ _ h5
  obtain ⟨hG, hH⟩ := tseq_snd_none _ _ h6
  refine ⟨?_, ?_⟩
  swap
  · simpa using hF
  rw [tseq_fst_of_none _ _ hA, tseq_fst_of_none _ _ hB, tseq_fst_of_none _ _ hC,
    tseq_fst_of_none _ _ hD, tseq_fst_of_none _ _ hE, tseq_fst_of_none _ _ hF,
    tseq_fst_of_none _ _ hG]
  have eA : defRouteOps (boolStep (Op.linkSetAlias nicName nicName)
      (env.linkSetAliasOk nicName) "failed to set link alias").1 = [] :=
    defRouteOps_boolStep _ _ _ rfl
  have eB : defRouteOps (boolStep (Op.linkSetNsFd nicName)
      (env.linkSetNsFdOk nicName) "failed to move link to netns").1 = [] :=
    defRouteOps_boolStep _ _ _ rfl
  have eC : defRouteOps (if nicType ≠ InternalType then
      boolStep (Op.linkSetName nicName ifName) (env.linkSetNameOk nicName)
        "failed to set link name" else tdone).1 = [] := by
    split
    · exact defRouteOps_boolStep _ _ _ rfl
    · rfl
  have eD : defRouteOps (ipv6SysctlStep env ipAddr).1 = [] :=
    defRouteOps_eq_nil _ (ipv6SysctlStep_no_defroute env ipAddr)
  have eE : defRouteOps (if nicType = InternalType then
      tseq (addAdditionalNicT env ifName) fun _ =>
        tseq (configureAdditionalNicT env ifName ipAddr) fun _ =>
          configureNicT env nicName ipAddr macAddr mtu
      else configureNicT env ifName ipAddr macAddr mtu).1 = [] := by
    split
    · apply defRouteOps_eq_nil
      intro op hop
      rcases mem_tseq _ _ _ hop with h | h
      · exact addAdditionalNicT_no_defroute env ifName op h
      rcases mem_tseq _ _ _ h with h | h
      · exact configureAdditionalNicT_no_defroute env ifName ipAddr op h
      · exact configureNicT_no_defroute env nicName ipAddr macAddr mtu op h
    · exact defRouteOps_eq_nil _ (configureNicT_no_defroute env ifName ipAddr macAddr mtu)
  have eG : defRouteOps (installStaticRoutes env L.index routes).1 = [] :=
    defRouteOps_eq_nil _ (installStaticRoutes_no_defroute env L.index routes hroutes)
  have eH : defRouteOps (if gwCheckMode ≠ gatewayModeDisabled then
      ((waitNetworkReady env (if nicType ≠ InternalType then ifName else nicName)
          ipAddr gateway (gwCheckMode == gatewayCheckModeArping) true).1,
        match (waitNetworkReady env (if nicType ≠ InternalType then ifName else nicName)
            ipAddr gateway (gwCheckMode == gatewayCheckModeArping) true).2 with
        | RRes.ok => none
        | RRes.fail m => some (Stop.err m)
        | RRes.panicOOR => some Stop.panicOOR)
      else tdone).1 = [] := by
    split
    · apply defRouteOps_eq_nil
      intro op hop
      exact waitLoop_no_defroute env _ _ _ _ 0 op hop
    · rfl
  simp only [defRouteOps_append, eA, eB, eC, eD, eE, eG, eH,
    List.nil_append, List.append_nil]
  rw [if_pos trivial]
  exact defRouteOps_installDefaultRoutes env L.index ipAddr gateway

/-- C4: on every successful `configureContainerNic` run with the
default-route flag set (and no static route requesting a default
destination), the default routes installed are exactly one `RouteReplace`
per address family of the request: for dual stack `0.0.0.0/0` via the
first (IPv4) gateway then `::/0` via the second (IPv6) gateway, both on
the container link; for a single-family request exactly one default route
via the single gateway. -/
theorem configureContainerNic_default_routes
    (env : Env) (nicName ifName ipAddr gateway : String) (routes : List ReqRoute)
    (macAddr : String) (mtu : Int) (nicType : String) (gwCheckMode : Int) (L : Link)
    (g4 g6 : String)
    (hL : env.linkByName nicName = .found L)
    (hroutes : ∀ r ∈ routes, r.destination ≠ "0.0.0.0/0" ∧ r.destination ≠ "::/0")
    (hok : (configureContainerNic env nicName ifName ipAddr gateway true routes macAddr mtu
      nicType gwCheckMode).2 = .ok) :
    (CheckProtocol ipAddr = .dual → splitComma gateway = [g4, g6] →
      defRouteOps (configureContainerNic env nicName ifName ipAddr gateway true routes
          macAddr mtu nicType gwCheckMode).1 =
        [Op.routeReplace (defaultRoute4 (parseIP g4) L.index),
          Op.routeReplace (defaultRoute6 (parseIP g6) L.index)]) ∧
    (CheckProtocol ipAddr = .ipv4 →
      defRouteOps (configureContainerNic env nicName ifName ipAddr gateway true routes
          macAddr mtu nicType gwCheckMode).1 =
        [Op.routeReplace (defaultRoute4 (parseIP gateway) L.index)]) ∧
    (CheckProtocol ipAddr = .ipv6 →
      defRouteOps (configureContainerNic env nicName ifName ipAddr gateway true routes
          macAddr mtu nicType gwCheckMode).1 =
        [Op.routeReplace (defaultRoute6 (parseIP gateway) L.index)]) := by
  obtain ⟨hall, hsub⟩ := configureContainerNic_defroutes_core env nicName ifName ipAddr
    gateway routes macAddr mtu nicType gwCheckMode L hL hroutes hok
  refine ⟨?_, ?_, ?_⟩
  · intro hd hg
    rw [hall]
    exact installDefaultRoutes_dual env L.index ipAddr gateway g4 g6 hd hg hsub
  · intro h4
    rw [hall]
    exact installDefaultRoutes_v4 env L.index ipAddr gateway h4 hsub
  · intro h6
    rw [hall]
    exact installDefaultRoutes_v6 env L.index ipAddr gateway h6 hsub

/-- Witness for C4: the dual-stack request `10.0.0.5/24,fd00::5/64` with
gateways `10.0.0.1,fd00::1` yields exactly the v4-then-v6 default routes,
and the single-family request `10.0.0.5/24` yields exactly one. -/
theorem configureContainerNic_default_routes_witness :
    defRouteOps (configureContainerNic allOkEnv "veth_c" "eth0" "10.0.0.5/24,fd00::5/64"
        "10.0.0.1,fd00::1" true [] "mac" 1400 "veth" gatewayModeDisabled).1 =
      [Op.routeReplace (defaultRoute4 (parseIP "10.0.0.1") (plainLink "veth_c").index),
        Op.routeReplace (defaultRoute6 (parseIP "fd00::1") (plainLink "veth_c").index)] ∧
    defRouteOps (configureContainerNic allOkEnv "veth_c" "eth0" "10.0.0.5/24"
        "10.0.0.1" true [] "mac" 1400 "veth" gatewayModeDisabled).1 =
      [Op.routeReplace (defaultRoute4 (parseIP "10.0.0.1") (plainLink "veth_c").index)] :=
  ⟨(configureContainerNic_default_routes allOkEnv "veth_c" "eth0" "10.0.0.5/24,fd00::5/64"
      "10.0.0.1,fd00::1" [] "mac" 1400 "veth" gatewayModeDisabled (plainLink "veth_c")
      "10.0.0.1" "fd00::1" rfl (fun r hr => absurd hr (List.not_mem_nil r)) rfl).1
      (by decide) (by decide),
   ((configureContainerNic_default_routes allOkEnv "veth_c" "eth0" "10.0.0.5/24"
      "10.0.0.1" [] "mac" 1400 "veth" gatewayModeDisabled (plainLink "veth_c")
      "" "" rfl (fun r hr => absurd hr (List.not_mem_nil r)) rfl).2).1 (by decide)⟩

/-! ## Claim C2 — amended order of the per-address move -/

/-- C2 (amended): `configProviderNic` performs the per-address move in
the opposite order from the claim: scanning any run's trace, every
installation of an address on the bridge is PRECEDED by the deletion of
that same address (same IP/prefix) from the uplink — so between the two
steps, and on the error path where the bridge-side install fails, the
address is configured on neither device. -/
theorem configProviderNic_delete_precedes_install :
    ∀ env nicName brName,
      deletedBeforeInstalled nicName brName []
        (configProviderNic env nicName brName).1 = true := by
  intro env n b
  unfold configProviderNic
  cases h1 : env.linkByName n with
  | notFound => rfl
  | otherErr => rfl
  | found nic =>
    cases h2 : env.linkByName b with
    | notFound => rfl
    | otherErr => rfl
    | found bridge =>
      dsimp only
      cases h3 : env.sysctlGet ("net.ipv6.conf." ++ b ++ ".disable_ipv6") with
      | error e => rfl
      | ok v =>
        rw [finishInt_fst]
        apply deletedBeforeInstalled_tseq
        · intro seen
          split
          · apply deletedBeforeInstalled_no_replace
            intro l a hmem
            exact absurd (mem_boolStep _ _ _ _ hmem) (by simp)
          · rfl
        · intro seen
          cases h4 : env.addrList n with
          | error e => rfl
          | ok addrs =>
            cases h5 : env.routeList n with
            | error e => rfl
            | ok routes =>
              apply deletedBeforeInstalled_tseq
              · exact deletedBeforeInstalled_moveAddrs env n b _ _ addrs
              · intro seen2
                apply deletedBeforeInstalled_tseq
                · intro seen3
                  cases halb : linkIsAlbBond env nic with
                  | error e => rfl
                  | ok albBond =>
                    cases albBond with
                    | true => rfl
                    | false =>
                      apply deletedBeforeInstalled_no_replace
                      intro l a hmem
                      exact absurd (mem_boolStep _ _ _ _ hmem) (by simp)
                · intro seen3
                  apply deletedBeforeInstalled_tseq
                  · intro seen4
                    apply deletedBeforeInstalled_no_replace
                    intro l a hmem
                    exact absurd (mem_boolStep _ _ _ _ hmem) (by simp)
                  · intro seen4
                    apply deletedBeforeInstalled_tseq
                    · intro seen5
                      apply deletedBeforeInstalled_no_replace
                      intro l a hmem
                      exact absurd (mem_boolStep _ _ _ _ hmem) (by simp)
                    · intro seen5
                      apply deletedBeforeInstalled_tseq
                      · intro seen6
                        apply deletedBeforeInstalled_no_replace
                        intro l a
                        exact replayRoutes_no_replace env bridge.index _ routes l a
                      · intro seen6
                        apply deletedBeforeInstalled_tseq
                        · intro seen7
                          apply deletedBeforeInstalled_no_replace
                          intro l a hmem
                          exact absurd (mem_boolStep _ _ _ _ hmem) (by simp)
                        · intro seen7
                          apply deletedBeforeInstalled_no_replace
                          intro l a hmem
                          exact absurd (mem_boolStep _ _ _ _ hmem) (by simp)

end KubeOvn
